import Mathlib

/-!
# OCR Sorter: the classification loop and the folder operations of `src/App.jsx`

A shallow embedding of the decision logic of `App.jsx`:

* the JavaScript string primitives the code calls (`includes`, `toUpperCase`, `trim`,
  `split`, `replace` with a string pattern, `length`);
* the three regular expressions of `processFiles`, as backtracking matchers;
* the body of the `for` loop of `processFiles`, split at the comments of the source
  (`// 1. Existing Folders`, `// 2. New Folder`, `// 3. Sticky`, and the final update);
* the handlers `saveFolderName`, `createNewFolder`, `togglePaperSelection`,
  `deleteSelectedPapers` and `moveSelectedPapers`.

Strings are lists of characters (code points).  `toUpperCase` is the full uppercase mapping
of the Unicode Character Database, version 14.0, as `String.prototype.toUpperCase` applies
it: one character may become several (`ß` becomes `SS`, the ligature `ﬁ` becomes `FI`).  A
thrown `TypeError` inside a handler is the result `none`; inside the `try` block of
`processFiles` it is caught, as in the source.
-/

namespace OcrSorter

/-- A JavaScript string, as the list of its characters. -/
abbrev Str := List Char

/-! ## String primitives -/

/-- Whether `s` begins with `p`. -/
def startsWith : Str → Str → Bool
  | _, [] => true
  | [], _ :: _ => false
  | c :: s, d :: p => c == d && startsWith s p

/-- `String.prototype.includes`: `p` occurs in `s` as a contiguous substring. -/
def includes : Str → Str → Bool
  | [], p => p.isEmpty
  | c :: s, p => startsWith (c :: s) p || includes s p

/-- The single-character uppercase mappings of the Unicode Character Database (version 14.0)
outside ASCII, as runs `(first, last, step, upper)`: the code points `first`, `first + step`,
…, `last` map to `upper`, `upper + step`, … -/
def upperRuns : List (Nat × Nat × Nat × Nat) := [
  (0xB5, 0xB5, 1, 0x39C), (0xE0, 0xF6, 1, 0xC0), (0xF8, 0xFE, 1, 0xD8),
  (0xFF, 0xFF, 1, 0x178), (0x101, 0x12F, 2, 0x100), (0x131, 0x131, 1, 0x49),
  (0x133, 0x137, 2, 0x132), (0x13A, 0x148, 2, 0x139), (0x14B, 0x177, 2, 0x14A),
  (0x17A, 0x17E, 2, 0x179), (0x17F, 0x17F, 1, 0x53), (0x180, 0x180, 1, 0x243),
  (0x183, 0x185, 2, 0x182), (0x188, 0x188, 1, 0x187), (0x18C, 0x18C, 1, 0x18B),
  (0x192, 0x192, 1, 0x191), (0x195, 0x195, 1, 0x1F6), (0x199, 0x199, 1, 0x198),
  (0x19A, 0x19A, 1, 0x23D), (0x19E, 0x19E, 1, 0x220), (0x1A1, 0x1A5, 2, 0x1A0),
  (0x1A8, 0x1A8, 1, 0x1A7), (0x1AD, 0x1AD, 1, 0x1AC), (0x1B0, 0x1B0, 1, 0x1AF),
  (0x1B4, 0x1B6, 2, 0x1B3), (0x1B9, 0x1B9, 1, 0x1B8), (0x1BD, 0x1BD, 1, 0x1BC),
  (0x1BF, 0x1BF, 1, 0x1F7), (0x1C5, 0x1C5, 1, 0x1C4), (0x1C6, 0x1C6, 1, 0x1C4),
  (0x1C8, 0x1C8, 1, 0x1C7), (0x1C9, 0x1C9, 1, 0x1C7), (0x1CB, 0x1CB, 1, 0x1CA),
  (0x1CC, 0x1CC, 1, 0x1CA), (0x1CE, 0x1DC, 2, 0x1CD), (0x1DD, 0x1DD, 1, 0x18E),
  (0x1DF, 0x1EF, 2, 0x1DE), (0x1F2, 0x1F2, 1, 0x1F1), (0x1F3, 0x1F3, 1, 0x1F1),
  (0x1F5, 0x1F5, 1, 0x1F4), (0x1F9, 0x21F, 2, 0x1F8), (0x223, 0x233, 2, 0x222),
  (0x23C, 0x23C, 1, 0x23B), (0x23F, 0x240, 1, 0x2C7E), (0x242, 0x242, 1, 0x241),
  (0x247, 0x24F, 2, 0x246), (0x250, 0x250, 1, 0x2C6F), (0x251, 0x251, 1, 0x2C6D),
  (0x252, 0x252, 1, 0x2C70), (0x253, 0x253, 1, 0x181), (0x254, 0x254, 1, 0x186),
  (0x256, 0x257, 1, 0x189), (0x259, 0x259, 1, 0x18F), (0x25B, 0x25B, 1, 0x190),
  (0x25C, 0x25C, 1, 0xA7AB), (0x260, 0x260, 1, 0x193), (0x261, 0x261, 1, 0xA7AC),
  (0x263, 0x263, 1, 0x194), (0x265, 0x265, 1, 0xA78D), (0x266, 0x266, 1, 0xA7AA),
  (0x268, 0x268, 1, 0x197), (0x269, 0x269, 1, 0x196), (0x26A, 0x26A, 1, 0xA7AE),
  (0x26B, 0x26B, 1, 0x2C62), (0x26C, 0x26C, 1, 0xA7AD), (0x26F, 0x26F, 1, 0x19C),
  (0x271, 0x271, 1, 0x2C6E), (0x272, 0x272, 1, 0x19D), (0x275, 0x275, 1, 0x19F),
  (0x27D, 0x27D, 1, 0x2C64), (0x280, 0x280, 1, 0x1A6), (0x282, 0x282, 1, 0xA7C5),
  (0x283, 0x283, 1, 0x1A9), (0x287, 0x287, 1, 0xA7B1), (0x288, 0x288, 1, 0x1AE),
  (0x289, 0x289, 1, 0x244), (0x28A, 0x28B, 1, 0x1B1), (0x28C, 0x28C, 1, 0x245),
  (0x292, 0x292, 1, 0x1B7), (0x29D, 0x29D, 1, 0xA7B2), (0x29E, 0x29E, 1, 0xA7B0),
  (0x345, 0x345, 1, 0x399), (0x371, 0x373, 2, 0x370), (0x377, 0x377, 1, 0x376),
  (0x37B, 0x37D, 1, 0x3FD), (0x3AC, 0x3AC, 1, 0x386), (0x3AD, 0x3AF, 1, 0x388),
  (0x3B1, 0x3C1, 1, 0x391), (0x3C2, 0x3C2, 1, 0x3A3), (0x3C3, 0x3CB, 1, 0x3A3),
  (0x3CC, 0x3CC, 1, 0x38C), (0x3CD, 0x3CE, 1, 0x38E), (0x3D0, 0x3D0, 1, 0x392),
  (0x3D1, 0x3D1, 1, 0x398), (0x3D5, 0x3D5, 1, 0x3A6), (0x3D6, 0x3D6, 1, 0x3A0),
  (0x3D7, 0x3D7, 1, 0x3CF), (0x3D9, 0x3EF, 2, 0x3D8), (0x3F0, 0x3F0, 1, 0x39A),
  (0x3F1, 0x3F1, 1, 0x3A1), (0x3F2, 0x3F2, 1, 0x3F9), (0x3F3, 0x3F3, 1, 0x37F),
  (0x3F5, 0x3F5, 1, 0x395), (0x3F8, 0x3F8, 1, 0x3F7), (0x3FB, 0x3FB, 1, 0x3FA),
  (0x430, 0x44F, 1, 0x410), (0x450, 0x45F, 1, 0x400), (0x461, 0x481, 2, 0x460),
  (0x48B, 0x4BF, 2, 0x48A), (0x4C2, 0x4CE, 2, 0x4C1), (0x4CF, 0x4CF, 1, 0x4C0),
  (0x4D1, 0x52F, 2, 0x4D0), (0x561, 0x586, 1, 0x531), (0x10D0, 0x10FA, 1, 0x1C90),
  (0x10FD, 0x10FF, 1, 0x1CBD), (0x13F8, 0x13FD, 1, 0x13F0), (0x1C80, 0x1C80, 1, 0x412),
  (0x1C81, 0x1C81, 1, 0x414), (0x1C82, 0x1C82, 1, 0x41E), (0x1C83, 0x1C84, 1, 0x421),
  (0x1C85, 0x1C85, 1, 0x422), (0x1C86, 0x1C86, 1, 0x42A), (0x1C87, 0x1C87, 1, 0x462),
  (0x1C88, 0x1C88, 1, 0xA64A), (0x1D79, 0x1D79, 1, 0xA77D), (0x1D7D, 0x1D7D, 1, 0x2C63),
  (0x1D8E, 0x1D8E, 1, 0xA7C6), (0x1E01, 0x1E95, 2, 0x1E00), (0x1E9B, 0x1E9B, 1, 0x1E60),
  (0x1EA1, 0x1EFF, 2, 0x1EA0), (0x1F00, 0x1F07, 1, 0x1F08), (0x1F10, 0x1F15, 1, 0x1F18),
  (0x1F20, 0x1F27, 1, 0x1F28), (0x1F30, 0x1F37, 1, 0x1F38), (0x1F40, 0x1F45, 1, 0x1F48),
  (0x1F51, 0x1F57, 2, 0x1F59), (0x1F60, 0x1F67, 1, 0x1F68), (0x1F70, 0x1F71, 1, 0x1FBA),
  (0x1F72, 0x1F75, 1, 0x1FC8), (0x1F76, 0x1F77, 1, 0x1FDA), (0x1F78, 0x1F79, 1, 0x1FF8),
  (0x1F7A, 0x1F7B, 1, 0x1FEA), (0x1F7C, 0x1F7D, 1, 0x1FFA), (0x1FB0, 0x1FB1, 1, 0x1FB8),
  (0x1FBE, 0x1FBE, 1, 0x399), (0x1FD0, 0x1FD1, 1, 0x1FD8), (0x1FE0, 0x1FE1, 1, 0x1FE8),
  (0x1FE5, 0x1FE5, 1, 0x1FEC), (0x214E, 0x214E, 1, 0x2132), (0x2170, 0x217F, 1, 0x2160),
  (0x2184, 0x2184, 1, 0x2183), (0x24D0, 0x24E9, 1, 0x24B6), (0x2C30, 0x2C5F, 1, 0x2C00),
  (0x2C61, 0x2C61, 1, 0x2C60), (0x2C65, 0x2C65, 1, 0x23A), (0x2C66, 0x2C66, 1, 0x23E),
  (0x2C68, 0x2C6C, 2, 0x2C67), (0x2C73, 0x2C73, 1, 0x2C72), (0x2C76, 0x2C76, 1, 0x2C75),
  (0x2C81, 0x2CE3, 2, 0x2C80), (0x2CEC, 0x2CEE, 2, 0x2CEB), (0x2CF3, 0x2CF3, 1, 0x2CF2),
  (0x2D00, 0x2D25, 1, 0x10A0), (0x2D27, 0x2D27, 1, 0x10C7), (0x2D2D, 0x2D2D, 1, 0x10CD),
  (0xA641, 0xA66D, 2, 0xA640), (0xA681, 0xA69B, 2, 0xA680), (0xA723, 0xA72F, 2, 0xA722),
  (0xA733, 0xA76F, 2, 0xA732), (0xA77A, 0xA77C, 2, 0xA779), (0xA77F, 0xA787, 2, 0xA77E),
  (0xA78C, 0xA78C, 1, 0xA78B), (0xA791, 0xA793, 2, 0xA790), (0xA794, 0xA794, 1, 0xA7C4),
  (0xA797, 0xA7A9, 2, 0xA796), (0xA7B5, 0xA7C3, 2, 0xA7B4), (0xA7C8, 0xA7CA, 2, 0xA7C7),
  (0xA7D1, 0xA7D1, 1, 0xA7D0), (0xA7D7, 0xA7D9, 2, 0xA7D6), (0xA7F6, 0xA7F6, 1, 0xA7F5),
  (0xAB53, 0xAB53, 1, 0xA7B3), (0xAB70, 0xABBF, 1, 0x13A0), (0xFF41, 0xFF5A, 1, 0xFF21),
  (0x10428, 0x1044F, 1, 0x10400), (0x104D8, 0x104FB, 1, 0x104B0), (0x10597, 0x105BB, 2, 0x10570),
  (0x10598, 0x105A0, 2, 0x10571), (0x105A4, 0x105B0, 2, 0x1057D), (0x105B4, 0x105B8, 2, 0x1058D),
  (0x105BC, 0x105BC, 1, 0x10595), (0x10CC0, 0x10CF2, 1, 0x10C80), (0x118C0, 0x118DF, 1, 0x118A0),
  (0x16E60, 0x16E7F, 1, 0x16E40), (0x1E922, 0x1E943, 1, 0x1E900)]

/-- The unconditional mappings of `SpecialCasing.txt`: the code points whose uppercase form
is more than one character, with that form. -/
def upperSpecial : List (Nat × List Nat) := [
  (0xDF, [0x53, 0x53]), (0x149, [0x2BC, 0x4E]), (0x1F0, [0x4A, 0x30C]),
  (0x390, [0x399, 0x308, 0x301]), (0x3B0, [0x3A5, 0x308, 0x301]), (0x587, [0x535, 0x552]),
  (0x1E96, [0x48, 0x331]), (0x1E97, [0x54, 0x308]), (0x1E98, [0x57, 0x30A]),
  (0x1E99, [0x59, 0x30A]), (0x1E9A, [0x41, 0x2BE]), (0x1F50, [0x3A5, 0x313]),
  (0x1F52, [0x3A5, 0x313, 0x300]), (0x1F54, [0x3A5, 0x313, 0x301]), (0x1F56, [0x3A5, 0x313, 0x342]),
  (0x1F80, [0x1F08, 0x399]), (0x1F81, [0x1F09, 0x399]), (0x1F82, [0x1F0A, 0x399]),
  (0x1F83, [0x1F0B, 0x399]), (0x1F84, [0x1F0C, 0x399]), (0x1F85, [0x1F0D, 0x399]),
  (0x1F86, [0x1F0E, 0x399]), (0x1F87, [0x1F0F, 0x399]), (0x1F88, [0x1F08, 0x399]),
  (0x1F89, [0x1F09, 0x399]), (0x1F8A, [0x1F0A, 0x399]), (0x1F8B, [0x1F0B, 0x399]),
  (0x1F8C, [0x1F0C, 0x399]), (0x1F8D, [0x1F0D, 0x399]), (0x1F8E, [0x1F0E, 0x399]),
  (0x1F8F, [0x1F0F, 0x399]), (0x1F90, [0x1F28, 0x399]), (0x1F91, [0x1F29, 0x399]),
  (0x1F92, [0x1F2A, 0x399]), (0x1F93, [0x1F2B, 0x399]), (0x1F94, [0x1F2C, 0x399]),
  (0x1F95, [0x1F2D, 0x399]), (0x1F96, [0x1F2E, 0x399]), (0x1F97, [0x1F2F, 0x399]),
  (0x1F98, [0x1F28, 0x399]), (0x1F99, [0x1F29, 0x399]), (0x1F9A, [0x1F2A, 0x399]),
  (0x1F9B, [0x1F2B, 0x399]), (0x1F9C, [0x1F2C, 0x399]), (0x1F9D, [0x1F2D, 0x399]),
  (0x1F9E, [0x1F2E, 0x399]), (0x1F9F, [0x1F2F, 0x399]), (0x1FA0, [0x1F68, 0x399]),
  (0x1FA1, [0x1F69, 0x399]), (0x1FA2, [0x1F6A, 0x399]), (0x1FA3, [0x1F6B, 0x399]),
  (0x1FA4, [0x1F6C, 0x399]), (0x1FA5, [0x1F6D, 0x399]), (0x1FA6, [0x1F6E, 0x399]),
  (0x1FA7, [0x1F6F, 0x399]), (0x1FA8, [0x1F68, 0x399]), (0x1FA9, [0x1F69, 0x399]),
  (0x1FAA, [0x1F6A, 0x399]), (0x1FAB, [0x1F6B, 0x399]), (0x1FAC, [0x1F6C, 0x399]),
  (0x1FAD, [0x1F6D, 0x399]), (0x1FAE, [0x1F6E, 0x399]), (0x1FAF, [0x1F6F, 0x399]),
  (0x1FB2, [0x1FBA, 0x399]), (0x1FB3, [0x391, 0x399]), (0x1FB4, [0x386, 0x399]),
  (0x1FB6, [0x391, 0x342]), (0x1FB7, [0x391, 0x342, 0x399]), (0x1FBC, [0x391, 0x399]),
  (0x1FC2, [0x1FCA, 0x399]), (0x1FC3, [0x397, 0x399]), (0x1FC4, [0x389, 0x399]),
  (0x1FC6, [0x397, 0x342]), (0x1FC7, [0x397, 0x342, 0x399]), (0x1FCC, [0x397, 0x399]),
  (0x1FD2, [0x399, 0x308, 0x300]), (0x1FD3, [0x399, 0x308, 0x301]), (0x1FD6, [0x399, 0x342]),
  (0x1FD7, [0x399, 0x308, 0x342]), (0x1FE2, [0x3A5, 0x308, 0x300]), (0x1FE3, [0x3A5, 0x308, 0x301]),
  (0x1FE4, [0x3A1, 0x313]), (0x1FE6, [0x3A5, 0x342]), (0x1FE7, [0x3A5, 0x308, 0x342]),
  (0x1FF2, [0x1FFA, 0x399]), (0x1FF3, [0x3A9, 0x399]), (0x1FF4, [0x38F, 0x399]),
  (0x1FF6, [0x3A9, 0x342]), (0x1FF7, [0x3A9, 0x342, 0x399]), (0x1FFC, [0x3A9, 0x399]),
  (0xFB00, [0x46, 0x46]), (0xFB01, [0x46, 0x49]), (0xFB02, [0x46, 0x4C]),
  (0xFB03, [0x46, 0x46, 0x49]), (0xFB04, [0x46, 0x46, 0x4C]), (0xFB05, [0x53, 0x54]),
  (0xFB06, [0x53, 0x54]), (0xFB13, [0x544, 0x546]), (0xFB14, [0x544, 0x535]),
  (0xFB15, [0x544, 0x53B]), (0xFB16, [0x54E, 0x546]), (0xFB17, [0x544, 0x53D])]

/-- The uppercase form of the code point `n`, for `n` outside ASCII. -/
def upperOf (n : Nat) : List Nat :=
  match upperSpecial.lookup n with
  | some us => us
  | none =>
    match upperRuns.find? fun r => r.1 ≤ n && n ≤ r.2.1 && (n - r.1) % r.2.2.1 == 0 with
    | some r => [r.2.2.2 + (n - r.1)]
    | none => [n]

/-- The uppercase form of one character, which may be several characters. -/
def upperChar (c : Char) : List Char :=
  if c.toNat < 0x80 then [c.toUpper] else (upperOf c.toNat).map Char.ofNat

/-- `String.prototype.toUpperCase`: every character is replaced by its uppercase form,
without regard to locale or context. -/
def toUpperCase (s : Str) : Str := s.flatMap upperChar

/-- The characters of the regular-expression class `\s`, which are also the characters
`String.prototype.trim` strips (white space and line terminators). -/
def isSpace (c : Char) : Bool :=
  let n := c.toNat
  n == 0x20 || (0x09 ≤ n && n ≤ 0x0D) || n == 0xA0 || n == 0x1680
    || (0x2000 ≤ n && n ≤ 0x200A) || n == 0x2028 || n == 0x2029 || n == 0x202F
    || n == 0x205F || n == 0x3000 || n == 0xFEFF

/-- The class `\d`. -/
def isDigit (c : Char) : Bool := 0x30 ≤ c.toNat && c.toNat ≤ 0x39

/-- The class `[A-Z]`. -/
def isCapital (c : Char) : Bool := 0x41 ≤ c.toNat && c.toNat ≤ 0x5A

/-- The class `\w`: `[A-Za-z0-9_]`. -/
def isWordChar (c : Char) : Bool :=
  isCapital c || (0x61 ≤ c.toNat && c.toNat ≤ 0x7A) || isDigit c || c.toNat == 0x5F

/-- `String.prototype.trim`. -/
def trim (s : Str) : Str :=
  ((s.dropWhile isSpace).reverse.dropWhile isSpace).reverse

/-- `String.prototype.split` with a one-character separator: `cur` is the piece being read. -/
def splitAux (sep : Char) : Str → Str → List Str
  | cur, [] => [cur]
  | cur, c :: s => if c == sep then cur :: splitAux sep [] s else splitAux sep (cur ++ [c]) s

/-- `s.split(sep)` for a one-character separator. -/
def split (sep : Char) (s : Str) : List Str := splitAux sep [] s

/-- `s.replace(pat, rep)` with a string pattern: only the first occurrence is replaced. -/
def replace : Str → Str → Str → Str
  | [], pat, rep => if pat.isEmpty then rep else []
  | c :: s, pat, rep =>
    if startsWith (c :: s) pat then rep ++ (c :: s).drop pat.length
    else c :: replace s pat rep

/-- The `length` of a string: the number of UTF-16 code units. -/
def jsLength (s : Str) : Nat :=
  (s.map fun c => if c.toNat < 0x10000 then 1 else 2).sum

/-- `Array.prototype.findIndex`: `none` stands for `-1`. -/
def findIndex {α : Type} (p : α → Bool) : List α → Option Nat
  | [] => none
  | a :: l => if p a then some 0 else (findIndex p l).map (· + 1)

/-- `Array.prototype.filter` with a predicate on the index only, reading from index `i`. -/
def filterIdxFrom {α : Type} (p : Nat → Bool) : Nat → List α → List α
  | _, [] => []
  | i, a :: l => if p i then a :: filterIdxFrom p (i + 1) l else filterIdxFrom p (i + 1) l

/-- `arr.filter((_, idx) => p idx)`. -/
def filterIdx {α : Type} (p : Nat → Bool) (l : List α) : List α := filterIdxFrom p 0 l

/-- Decimal digits of a number, as in a template literal. -/
def numToStr (n : Nat) : Str := Nat.toDigits 10 n

/-! ## Regular expressions

A pattern maps a cursor to the list of cursors at which it can stop, in the order in which
a backtracking matcher tries them (greedy choices first). -/

/-- A position inside the subject string during one match attempt. -/
structure Cursor where
  /-- The character just before the cursor, if there is one. -/
  prev : Option Char
  /-- What this attempt has consumed so far. -/
  matched : Str
  /-- The input from the cursor on. -/
  rest : Str
  deriving DecidableEq, Repr

/-- A pattern. -/
abbrev Pattern := Cursor → List Cursor

/-- One character of a class. -/
def one (p : Char → Bool) : Pattern := fun c =>
  match c.rest with
  | x :: r => if p x then [⟨some x, c.matched ++ [x], r⟩] else []
  | [] => []

/-- The greedy `?`: first with the character, then without it. -/
def opt (p : Char → Bool) : Pattern := fun c => one p c ++ [c]

/-- The assertion `\b`. -/
def wordBoundary : Pattern := fun c =>
  if (c.prev.any isWordChar) != (c.rest.head?.any isWordChar) then [c] else []

/-- Concatenation. -/
def andThen (f g : Pattern) : Pattern := fun c => (f c).flatMap g

/-- Alternation `f|g`. -/
def orElse (f g : Pattern) : Pattern := fun c => f c ++ g c

/-- The greedy `*` of a class, by recursion on the input. -/
def starFrom (p : Char → Bool) : Option Char → Str → Str → List Cursor
  | prev, m, [] => [⟨prev, m, []⟩]
  | prev, m, x :: r =>
    (if p x then starFrom p (some x) (m ++ [x]) r else []) ++ [⟨prev, m, x :: r⟩]

/-- The greedy `+` of a class. -/
def plus (p : Char → Bool) : Pattern :=
  andThen (one p) fun c => starFrom p c.prev c.matched c.rest

/-- A literal under the flag `i`. -/
def literalI : Str → Pattern
  | [] => fun c => [c]
  | x :: xs => andThen (one fun y => y.toUpper == x.toUpper) (literalI xs)

/-- The first match of a pattern, trying the start positions from left to right. -/
def execFrom (re : Pattern) : Option Char → Str → Option Str
  | prev, [] => ((re ⟨prev, [], []⟩).head?).map (·.matched)
  | prev, c :: r =>
    match (re ⟨prev, [], c :: r⟩).head? with
    | some m => some m.matched
    | none => execFrom re (some c) r

/-- The element `[0]` of `s.match(re)` for a pattern without the flag `g`. -/
def jsMatch (re : Pattern) (s : Str) : Option Str := execFrom re none s

/-- The pattern `\b20[12]\d\b`. -/
def yearPattern : Pattern :=
  andThen wordBoundary <| andThen (one (· == '2')) <| andThen (one (· == '0')) <|
  andThen (one fun c => c == '1' || c == '2') <| andThen (one isDigit) wordBoundary

/-- The pattern `\b[A-Z]{3}[\s-]?:?\s?\d{3,4}\b`. -/
def codePattern : Pattern :=
  andThen wordBoundary <| andThen (one isCapital) <| andThen (one isCapital) <|
  andThen (one isCapital) <| andThen (opt fun c => isSpace c || c == '-') <|
  andThen (opt (· == ':')) <| andThen (opt isSpace) <|
  andThen (one isDigit) <| andThen (one isDigit) <| andThen (one isDigit) <|
  andThen (opt isDigit) wordBoundary

/-- The pattern `PAGE\s+\d+|QUESTION|MARKS|SECTION` with the flag `i`. -/
def bodyPattern : Pattern :=
  orElse (andThen (literalI "PAGE".toList) <| andThen (plus isSpace) (plus isDigit)) <|
  orElse (literalI "QUESTION".toList) <|
  orElse (literalI "MARKS".toList) (literalI "SECTION".toList)

/-- `parseInt` on a string of decimal digits. -/
def parseInt (s : Str) : Nat := s.foldl (fun n c => 10 * n + (c.toNat - 48)) 0

/-! ## Data model -/

/-- An entry of a folder's `papers` array. -/
structure Paper where
  url : Str
  name : Str
  year : Nat
  deriving DecidableEq, Repr

/-- An entry of `results`. -/
structure Folder where
  code : Str
  name : Str
  count : Nat
  papers : List Paper
  deriving DecidableEq, Repr

/-- An entry of `files`, together with what `worker.recognize(paper.url)` yields for it:
`none` when the call throws. -/
structure ScanFile where
  url : Str
  name : Str
  text : Option Str
  deriving DecidableEq, Repr

/-- The constant `SUBJ_DATA`, as (code, name) pairs. -/
def SUBJ_DATA : List (Str × Str) :=
  [ ("CIT 417".toList, "CIT 417: Data Driven Websites".toList),
    ("CIR 405".toList, "CIR 405: Distributed Systems".toList),
    ("CIT 423".toList, "CIT 423: IT Project Management".toList),
    ("BBE 401".toList, "BBE 401: Entrepreneurship and Small Business Management".toList),
    ("CIR 401".toList, "CIR 401: Management Information Systems".toList),
    ("CIT 421".toList, "CIT 421: Information Technology and Development".toList) ]

/-- The initial value of `results`: `SUBJ_DATA.map(s => ({ ...s, count: 0, papers: [] }))`. -/
def initialResults : List Folder :=
  SUBJ_DATA.map fun s => { code := s.1, name := s.2, count := 0, papers := [] }

/-! ## Sorting papers -/

/-- Insertion of `p` in front of the first paper whose year is not greater than its year. -/
def insertPaper (p : Paper) : List Paper → List Paper
  | [] => [p]
  | q :: l => if q.year ≤ p.year then p :: q :: l else q :: insertPaper p l

/-- `papers.sort((a, b) => b.year - a.year)`: the stable sort by year, largest first.
`Array.prototype.sort` is stable (ECMAScript 2019) and the comparator is a consistent order
on numbers, so the result is the one list that is ordered by year and keeps the papers of
equal year in their previous order; insertion sort computes it. -/
def sortPapers : List Paper → List Paper
  | [] => []
  | p :: l => insertPaper p (sortPapers l)

/-! ## The loop of `processFiles` -/

/-- The name part of a folder, line 117:
`folder.name.split(':')[1]?.trim().toUpperCase() || folder.name.toUpperCase()`.
The empty string is falsy, so an empty piece falls back to the whole name. -/
def namePart (name : Str) : Str :=
  match (split ':' name)[1]? with
  | some piece =>
    let s := toUpperCase (trim piece)
    if s.isEmpty then toUpperCase name else s
  | none => toUpperCase name

/-- The words of the name part that have more than three characters, line 119. -/
def significantWords (name : Str) : List Str :=
  (split ' ' (namePart name)).filter fun w => jsLength w > 3

/-- The significant words that occur in the text, line 120. -/
def foundWords (cleanText : Str) (name : Str) : List Str :=
  (significantWords name).filter fun w => includes cleanText w

/-- The two code tests of the callback, lines 114 and 115. -/
def codeOccurs (cleanText : Str) (folder : Folder) : Bool :=
  includes cleanText folder.code || includes cleanText (replace folder.code [' '] [])

/-- The name test of the callback, lines 117 to 121. -/
def nameOccurs (cleanText : Str) (folder : Folder) : Bool :=
  decide ((foundWords cleanText folder.name).length ≥ 2)

/-- The callback of the first `findIndex`, lines 113 to 122. -/
def folderMatches (cleanText : Str) (folder : Folder) : Bool :=
  if includes cleanText folder.code then true
  else if includes cleanText (replace folder.code [' '] []) then true
  else nameOccurs cleanText folder

/-- The code derived from a match of the code pattern, line 128:
`codeMatch[0].replace(':', '').replace('-', ' ').trim()`. -/
def normalizeCode (m : Str) : Str :=
  trim (replace (replace m [':'] []) ['-'] [' '])

/-- The display name of a detected folder, lines 131 to 137. -/
def detectedName (text : Str) (m : Str) (newCode : Str) : Str :=
  let lines := split '\n' text
  match findIndex (fun l => includes (toUpperCase l) newCode) lines with
  | none => newCode ++ ": Detected Subject".toList
  | some codeLineIdx =>
    let potentialTitle := trim (replace (lines.getD codeLineIdx []) m [])
    if jsLength potentialTitle > 5 then newCode ++ ": ".toList ++ potentialTitle
    else newCode ++ ": Detected Subject".toList

/-- The block `// 2. New Folder`, lines 125 to 145: the folders and the match index after it. -/
def newFolder (text cleanText : Str) (activeFolders : List Folder) (matchIndex : Option Nat) :
    List Folder × Option Nat :=
  match matchIndex with
  | some k => (activeFolders, some k)
  | none =>
    match jsMatch codePattern cleanText with
    | none => (activeFolders, none)
    | some m =>
      let newCode := normalizeCode m
      match findIndex (fun f => f.code == newCode) activeFolders with
      | some k => (activeFolders, some k)
      | none =>
        (activeFolders ++
            [{ code := newCode, name := detectedName text m newCode, count := 0, papers := [] }],
          some activeFolders.length)

/-- The test `isBodyPage`, line 149. -/
def isBodyPage (cleanText : Str) : Bool := (jsMatch bodyPattern cleanText).isSome

/-- The block `// 3. Sticky`, lines 148 to 154. -/
def sticky (i : Nat) (cleanText : Str) (lastMatchedIndex matchIndex : Option Nat) : Option Nat :=
  match matchIndex, lastMatchedIndex with
  | none, some last => if isBodyPage cleanText || decide (i > 0) then some last else none
  | m, _ => m

/-- The variables of the loop that outlive an iteration. -/
structure LoopState where
  activeFolders : List Folder
  lastMatchedIndex : Option Nat
  deriving DecidableEq, Repr

/-- The year of the text, lines 109 and 110. -/
def detectedYear (text : Str) : Nat :=
  match jsMatch yearPattern text with
  | some y => parseInt y
  | none => 0

/-- The stored year, line 161: `detectedYear || 2024`. -/
def storedYear (text : Str) : Nat :=
  if detectedYear text = 0 then 2024 else detectedYear text

/-- The folders and the match index on which the final `if` of the iteration decides
(lines 113 to 154), for document `i` with recognised text `text`. -/
def matchStep (i : Nat) (st : LoopState) (text : Str) : List Folder × Option Nat :=
  let cleanText := toUpperCase text
  let r := newFolder text cleanText st.activeFolders
    (findIndex (folderMatches cleanText) st.activeFolders)
  (r.1, sticky i cleanText st.lastMatchedIndex r.2)

/-- The update of the matched folder, lines 157 to 163. -/
def addPaper (folder : Folder) (p : Paper) : Folder :=
  { folder with count := folder.count + 1, papers := sortPapers (folder.papers ++ [p]) }

/-- One iteration of the loop, lines 106 to 174.  An index outside the array makes
`activeFolders[matchIndex]` undefined; the `TypeError` is caught and nothing is updated. -/
def processPaper (i : Nat) (st : LoopState) (paper : ScanFile) : LoopState :=
  match paper.text with
  | none => st
  | some text =>
    match matchStep i st text with
    | (folders, some k) =>
      match folders[k]? with
      | some folder =>
        { activeFolders :=
            folders.set k (addPaper folder ⟨paper.url, paper.name, storedYear text⟩),
          lastMatchedIndex := some k }
      | none => st
    | (folders, none) => { activeFolders := folders, lastMatchedIndex := none }

/-- The loop from iteration `i` on. -/
def loopFrom : Nat → LoopState → List ScanFile → LoopState
  | _, st, [] => st
  | i, st, paper :: files => loopFrom (i + 1) (processPaper i st paper) files

/-- The function `processFiles`: the value of `results` after the run. -/
def processFiles (results : List Folder) (files : List ScanFile) : List Folder :=
  (loopFrom 0 ⟨results, none⟩ files).activeFolders

/-! ## Folder operations -/

/-- The state the handlers read and write. -/
structure AppState where
  results : List Folder
  viewingFolderIdx : Option Nat
  /-- The set `selectedPapers`, as the list of its members. -/
  selectedPapers : List Nat
  isSelectionMode : Bool
  moveTargetFolder : Str
  editNameValue : Str
  deriving DecidableEq, Repr

/-- The handler `saveFolderName`, lines 185 to 188. -/
def saveFolderName (idx : Nat) (s : AppState) : Option AppState :=
  match s.results[idx]? with
  | none => none
  | some folder =>
    some { s with results := s.results.set idx { folder with name := s.editNameValue } }

/-- The handler `createNewFolder`, lines 191 to 202. -/
def createNewFolder (s : AppState) : AppState :=
  let newCode := "NEW ".toList ++ numToStr (s.results.length + 1)
  { s with results := s.results ++
      [{ code := newCode, name := newCode ++ " - Click pencil to rename".toList,
         count := 0, papers := [] }] }

/-- The handler `togglePaperSelection`, lines 205 to 210. -/
def togglePaperSelection (idx : Nat) (s : AppState) : AppState :=
  if s.selectedPapers.contains idx then
    { s with selectedPapers := s.selectedPapers.filter (· != idx) }
  else { s with selectedPapers := s.selectedPapers ++ [idx] }

/-- The handler `deleteSelectedPapers`, lines 212 to 223. -/
def deleteSelectedPapers (s : AppState) : Option AppState :=
  match s.viewingFolderIdx with
  | none => some s
  | some v =>
    match s.results[v]? with
    | none => none
    | some folder =>
      let papers := filterIdx (fun idx => !s.selectedPapers.contains idx) folder.papers
      some { s with
        results := s.results.set v { folder with papers := papers, count := papers.length },
        selectedPapers := [], isSelectionMode := false }

/-- The handler `moveSelectedPapers`, lines 225 to 249.  `sourceFolder` and `targetFolder`
are references into `newResults`: when both indices are the same, the target is read after
the source has been written. -/
def moveSelectedPapers (s : AppState) : Option AppState :=
  match s.viewingFolderIdx with
  | none => some s
  | some v =>
    if s.moveTargetFolder.isEmpty then some s else
    match findIndex (fun r => r.code == s.moveTargetFolder) s.results with
    | none => some s
    | some targetIdx =>
      match s.results[v]? with
      | none => none
      | some sourceFolder =>
        let papersToMove := filterIdx (fun idx => s.selectedPapers.contains idx) sourceFolder.papers
        let kept := filterIdx (fun idx => !s.selectedPapers.contains idx) sourceFolder.papers
        let afterSource :=
          s.results.set v { sourceFolder with papers := kept, count := kept.length }
        match afterSource[targetIdx]? with
        | none => none
        | some targetFolder =>
          let merged := sortPapers (targetFolder.papers ++ papersToMove)
          some { s with
            results :=
              afterSource.set targetIdx
                { targetFolder with papers := merged, count := merged.length },
            selectedPapers := [], isSelectionMode := false }

/-- The state of a freshly mounted component. -/
def initialState : AppState :=
  { results := initialResults, viewingFolderIdx := none, selectedPapers := [],
    isSelectionMode := false, moveTargetFolder := [], editNameValue := [] }

/-! ## A run interleaved with the handlers

Line 98 copies the array `results` into `activeFolders`, so both arrays hold the same
folder objects.  A handler writes into folder objects or appends a folder to its own copy
of `results`, and never removes or reorders folders; the loop writes into folder objects
or appends to `activeFolders`, and line 170 replaces `results` by a copy of `activeFolders`.
Handlers run while the loop waits (lines 107 and 175), that is, between the iterations
below; at such a moment `activeFolders` consists of the leading folders of `results`, with
the contents they have then.  A handler running during the pause of line 142 is not
modelled. -/

/-- Whether the iteration reaches `setResults([...activeFolders])`, line 170: it does not
when `worker.recognize` throws, nor when the access to the matched folder throws. -/
def reachesSetResults (i : Nat) (st : LoopState) (paper : ScanFile) : Bool :=
  match paper.text with
  | none => false
  | some text =>
    match matchStep i st text with
    | (folders, some k) => (folders[k]?).isSome
    | (_, none) => true

/-- A run of `processFiles` in progress together with the state the handlers work on. -/
structure Session where
  app : AppState
  /-- How many leading folders of `app.results` make up `activeFolders`. -/
  active : Nat
  lastMatchedIndex : Option Nat
  i : Nat
  deriving DecidableEq, Repr

/-- Lines 98 and 99: the run starts from a copy of `results`. -/
def startRun (app : AppState) : Session :=
  { app := app, active := app.results.length, lastMatchedIndex := none, i := 0 }

/-- One iteration of the loop inside a session: it works on `activeFolders`, and when it
reaches line 170 the folders of `results` that are not in `activeFolders` are gone. -/
def iteration (s : Session) (paper : ScanFile) : Session :=
  let st : LoopState := ⟨s.app.results.take s.active, s.lastMatchedIndex⟩
  if reachesSetResults s.i st paper then
    let st' := processPaper s.i st paper
    { app := { s.app with results := st'.activeFolders },
      active := st'.activeFolders.length,
      lastMatchedIndex := st'.lastMatchedIndex, i := s.i + 1 }
  else { s with i := s.i + 1 }

/-! ## Auxiliary definitions for the statements

Notions the theorems are stated with, and the concrete inputs of the examples. -/

/-- The code test in the words of the specification: the code occurs verbatim, or with all
of its white space removed. -/
def codeOccursNoSpace (cleanText : Str) (folder : Folder) : Bool :=
  includes cleanText folder.code ||
    includes cleanText (folder.code.filter fun c => !isSpace c)

/-- The normalisation in the words of the specification: every colon stripped, every hyphen
replaced by a space, then trimmed. -/
def normalizedPattern (m : Str) : Str :=
  trim ((m.filter fun c => c != ':').map fun c => if c == '-' then ' ' else c)

/-- A code with at most one white-space character, which is then a space. -/
def singleSpaced (code : Str) : Prop :=
  code.filter isSpace = [] ∨ code.filter isSpace = [' ']

instance (code : Str) : Decidable (singleSpaced code) := by
  unfold singleSpaced; infer_instance

/-- The loop variables at the start of iteration `i` of a run over `files`. -/
def stateBefore (results : List Folder) (files : List ScanFile) (i : Nat) : LoopState :=
  loopFrom 0 ⟨results, none⟩ (files.take i)

/-- The folders' codes and names, the only fields the matching step reads. -/
def labels (folders : List Folder) : List (Str × Str) := folders.map fun f => (f.code, f.name)

/-- A header page of the seed subject CIT 417. -/
def headerPage : ScanFile :=
  ⟨"p1.jpg".toList, "p1.jpg".toList, some "CIT 417 Data Driven Websites Exam 2023".toList⟩

/-- A page with a continuation marker and no subject. -/
def questionPage : ScanFile :=
  ⟨"p2.jpg".toList, "p2.jpg".toList, some "Question 3: compare the two designs".toList⟩

/-- A page with neither a marker nor a subject. -/
def plainPage : ScanFile :=
  ⟨"p2.jpg".toList, "p2.jpg".toList, some "Compare the two designs".toList⟩

/-- A page whose code is written with a tab. -/
def tabPage : ScanFile :=
  ⟨"a.jpg".toList, "a.jpg".toList, some "TAB\t123 Intro".toList⟩

/-- The folders after the pages "ABC : 123 Intro" and "XYZ 999 Quantum Computing" have been
sorted from the seed folders: the loop has appended the folders "ABC  123" (two spaces,
index 6) and "XYZ 999" (index 7). -/
def detectedFolders : List Folder :=
  processFiles initialResults
    [⟨"a.jpg".toList, "a.jpg".toList, some "ABC : 123 Intro".toList⟩,
     ⟨"b.jpg".toList, "b.jpg".toList, some "XYZ 999 Quantum Computing".toList⟩]

/-- A list of papers is in order when no paper is followed by one with a greater year. -/
def YearSorted (l : List Paper) : Prop := l.Pairwise fun a b => b.year ≤ a.year

/-- The papers of year `y`, in their order in the list. -/
def ofYear (y : Nat) (l : List Paper) : List Paper := l.filter fun p => p.year == y

/-- The entries of `l` at the indices for which `p` holds, in their order in `l`. -/
def atIndices {α : Type} (p : Nat → Bool) (l : List α) : List α :=
  ((List.enum l).filter fun x => p x.1).map Prod.snd

/-- The number of papers in all folders. -/
def totalPapers (results : List Folder) : Nat := (results.map fun f => f.papers.length).sum

/-- Two folders with papers, the first being viewed with its second paper selected and
CIR 405 chosen as the target. -/
def moveExample : AppState :=
  { results :=
      [⟨"CIT 417".toList, "CIT 417: Data Driven Websites".toList, 2,
          [⟨"a.jpg".toList, "a.jpg".toList, 2023⟩, ⟨"b.jpg".toList, "b.jpg".toList, 2021⟩]⟩,
        ⟨"CIR 405".toList, "CIR 405: Distributed Systems".toList, 1,
          [⟨"c.jpg".toList, "c.jpg".toList, 2022⟩]⟩],
    viewingFolderIdx := some 0, selectedPapers := [1], isSelectionMode := true,
    moveTargetFolder := "CIR 405".toList, editNameValue := [] }

/-- Two pages of CIT 417 and one of CIR 405, all without a year, have been sorted; CIR 405
is being viewed, its paper is selected and CIT 417 is chosen in the list of targets. -/
def firstMove : AppState :=
  { initialState with
    results := processFiles initialResults
      [⟨"a.jpg".toList, "a.jpg".toList, some "CIT 417 Exam".toList⟩,
       ⟨"b.jpg".toList, "b.jpg".toList, some "CIT 417 Exam".toList⟩,
       ⟨"c.jpg".toList, "c.jpg".toList, some "CIR 405 Exam".toList⟩],
    viewingFolderIdx := some 1, selectedPapers := [0], isSelectionMode := true,
    moveTargetFolder := "CIT 417".toList }

/-- The state after the move of `firstMove`, with CIT 417 then opened, selection mode
switched on and its first paper selected.  No handler has touched `moveTargetFolder`, which
is still "CIT 417". -/
def staleTargetState : AppState :=
  match moveSelectedPapers firstMove with
  | some s => togglePaperSelection 0 { s with viewingFolderIdx := some 0, isSelectionMode := true }
  | none => firstMove

/-- The state after one page whose text is "NEW 100" has been sorted and the button that
creates a folder has been pressed 93 times. -/
def manyNewFolders : AppState :=
  Nat.iterate createNewFolder 93
    { initialState with
      results := processFiles initialResults
        [⟨"a.jpg".toList, "a.jpg".toList, some "NEW 100".toList⟩] }

/-- A page for which `worker.recognize` throws. -/
def failedPage : ScanFile := ⟨"p2.jpg".toList, "p2.jpg".toList, none⟩

/-- A third page with neither a marker nor a subject. -/
def laterPage : ScanFile :=
  ⟨"p3.jpg".toList, "p3.jpg".toList, some "Compare the two designs".toList⟩

/-- Whether a year token (`20`, then `1` or `2`, then a digit) stands at the head of `s`
with no word character before it (`prev`) and none after it. -/
def yearTokenAt (prev : Option Char) (s : Str) : Option Str :=
  match s with
  | a :: b :: c :: d :: rest =>
    if a == '2' && b == '0' && (c == '1' || c == '2') && isDigit d
        && !(prev.any isWordChar) && !(rest.head?.any isWordChar) then
      some [a, b, c, d]
    else none
  | _ => none

/-- The first standalone year token of a text, reading from the left; `prev` is the
character before the text. -/
def firstYearToken : Option Char → Str → Option Str
  | _, [] => none
  | prev, c :: r =>
    match yearTokenAt prev (c :: r) with
    | some m => some m
    | none => firstYearToken (some c) r

/-- The name part in the words of the specification: everything after the first colon of
the name. -/
def afterFirstColon (name : Str) : Str := (name.dropWhile fun c => c != ':').drop 1

/-- The piece of the name between its first colon and its second colon, or the end of the
name when there is no second colon. -/
def betweenColons (name : Str) : Str := (afterFirstColon name).takeWhile fun c => c != ':'

/-- The seed state after the first folder has been renamed to "Data Driven Websites:". -/
def renamedState : Option AppState :=
  saveFolderName 0 { initialState with editNameValue := "Data Driven Websites:".toList }

/-- Every folder's `count` is the number of its papers. -/
def CountsMatch (results : List Folder) : Prop := ∀ f ∈ results, f.count = f.papers.length

/-- The sum of the `count` fields. -/
def totalCount (results : List Folder) : Nat := (results.map fun f => f.count).sum

/-- A run over two pages of CIT 417 in which, between the two iterations, a folder is
created by hand, CIT 417 is opened, its paper is selected and moved to the new folder
"NEW 7": the state after that move. -/
def movedIntoNewFolder : Option Session :=
  let s1 := iteration (startRun initialState)
    ⟨"a.jpg".toList, "a.jpg".toList, some "CIT 417 Exam".toList⟩
  let opened := togglePaperSelection 0
    { createNewFolder s1.app with
      viewingFolderIdx := some 0, isSelectionMode := true, moveTargetFolder := "NEW 7".toList }
  (moveSelectedPapers opened).map fun app => { s1 with app := app }

/-- The same run after its second iteration. -/
def lostFolderRun : Option Session :=
  movedIntoNewFolder.map fun s =>
    iteration s ⟨"b.jpg".toList, "b.jpg".toList, some "CIT 417 Exam".toList⟩

/-! ## Facts about `findIndex` -/

theorem findIndex_cons_pos {α : Type} (p : α → Bool) (a : α) (l : List α) (h : p a = true) :
    findIndex p (a :: l) = some 0 := by
  simp [findIndex, h]

theorem findIndex_cons_neg {α : Type} (p : α → Bool) (a : α) (l : List α) (h : p a = false) :
    findIndex p (a :: l) = (findIndex p l).map (· + 1) := by
  simp [findIndex, h]

theorem findIndex_eq_none_iff {α : Type} (p : α → Bool) (l : List α) :
    findIndex p l = none ↔ ∀ a ∈ l, p a = false := by
  induction l with
  | nil => simp [findIndex]
  | cons a l ih =>
    cases h : p a with
    | true => simp [findIndex_cons_pos p a l h, h]
    | false => simp [findIndex_cons_neg p a l h, h, ih]

theorem findIndex_eq_some_iff {α : Type} (p : α → Bool) (l : List α) (k : Nat) :
    findIndex p l = some k ↔
      (∃ a, l[k]? = some a ∧ p a = true) ∧ ∀ j, j < k → ∀ b, l[j]? = some b → p b = false := by
  induction l generalizing k with
  | nil => simp [findIndex]
  | cons a l ih =>
    cases h : p a with
    | true =>
      rw [findIndex_cons_pos p a l h]
      cases k with
      | zero => simp [h]
      | succ k =>
        constructor
        · intro h0; simp at h0
        · rintro ⟨-, h2⟩
          have := h2 0 (Nat.succ_pos k) a (by simp)
          simp [h] at this
    | false =>
      rw [findIndex_cons_neg p a l h]
      cases k with
      | zero => simp [h]
      | succ k =>
        have hk : Option.map (· + 1) (findIndex p l) = some (k + 1) ↔ findIndex p l = some k := by
          cases findIndex p l <;> simp
        rw [hk, ih k]
        simp only [List.getElem?_cons_succ]
        constructor
        · rintro ⟨h1, h2⟩
          refine ⟨h1, ?_⟩
          intro j hj b hb
          cases j with
          | zero => simp at hb; subst hb; exact h
          | succ j => exact h2 j (by omega) b (by simpa using hb)
        · rintro ⟨h1, h2⟩
          refine ⟨h1, ?_⟩
          intro j hj b hb
          exact h2 (j + 1) (by omega) b (by simpa using hb)

theorem findIndex_lt_length {α : Type} (p : α → Bool) (l : List α) (k : Nat)
    (h : findIndex p l = some k) : k < l.length := by
  obtain ⟨⟨a, ha, -⟩, -⟩ := (findIndex_eq_some_iff p l k).1 h
  exact (List.getElem?_eq_some.1 ha).1

theorem findIndex_congr {α : Type} (p q : α → Bool) (l : List α)
    (h : ∀ a ∈ l, p a = q a) : findIndex p l = findIndex q l := by
  induction l with
  | nil => rfl
  | cons a l ih =>
    have ha : p a = q a := h a (by simp)
    have := ih fun b hb => h b (by simp [hb])
    simp [findIndex, ha, this]

theorem findIndex_append_of_none {α : Type} (p : α → Bool) (l r : List α)
    (h : findIndex p l = none) :
    findIndex p (l ++ r) = (findIndex p r).map (· + l.length) := by
  induction l with
  | nil => simp
  | cons a l ih =>
    cases ha : p a with
    | true => simp [findIndex_cons_pos p a l ha] at h
    | false =>
      rw [findIndex_cons_neg p a l ha] at h
      have hl : findIndex p l = none := by simpa using h
      rw [List.cons_append, findIndex_cons_neg p a _ ha, ih hl]
      cases findIndex p r <;> simp [Nat.add_assoc]

theorem findIndex_append_of_some {α : Type} (p : α → Bool) (l r : List α) (k : Nat)
    (h : findIndex p l = some k) : findIndex p (l ++ r) = some k := by
  induction l generalizing k with
  | nil => simp [findIndex] at h
  | cons a l ih =>
    cases ha : p a with
    | true =>
      rw [findIndex_cons_pos p a l ha] at h
      rw [List.cons_append, findIndex_cons_pos p a _ ha, h]
    | false =>
      rw [findIndex_cons_neg p a l ha] at h
      rw [List.cons_append, findIndex_cons_neg p a _ ha]
      cases hl : findIndex p l with
      | none => simp [hl] at h
      | some m => rw [ih m hl, ← h, hl]

/-- The first index at which a weaker test holds is not after the first index at which a
stronger one holds. -/
theorem findIndex_le_of_imp {α : Type} (p q : α → Bool) (l : List α) (k : Nat)
    (hpq : ∀ a, p a = true → q a = true) (h : findIndex p l = some k) :
    ∃ m, m ≤ k ∧ findIndex q l = some m := by
  induction l generalizing k with
  | nil => simp [findIndex] at h
  | cons a l ih =>
    cases hq : q a with
    | true => exact ⟨0, Nat.zero_le _, findIndex_cons_pos q a l hq⟩
    | false =>
      have hp : p a = false := by
        cases hp : p a with
        | true => rw [hpq a hp] at hq; cases hq
        | false => rfl
      rw [findIndex_cons_neg p a l hp] at h
      cases hl : findIndex p l with
      | none => simp [hl] at h
      | some j =>
        obtain ⟨m, hm, hm'⟩ := ih j hl
        have hk : j + 1 = k := by simpa [hl] using h
        exact ⟨m + 1, by omega, by rw [findIndex_cons_neg q a l hq, hm']; rfl⟩

/-! ## The matching step -/

theorem folderMatches_eq (cleanText : Str) (folder : Folder) :
    folderMatches cleanText folder =
      (codeOccurs cleanText folder || nameOccurs cleanText folder) := by
  unfold folderMatches codeOccurs
  cases includes cleanText folder.code <;>
    cases includes cleanText (replace folder.code [' '] []) <;> simp

theorem matchStep_of_found (i : Nat) (st : LoopState) (text : Str) (k : Nat)
    (h : findIndex (folderMatches (toUpperCase text)) st.activeFolders = some k) :
    matchStep i st text = (st.activeFolders, some k) := by
  simp [matchStep, newFolder, sticky, h]

theorem processPaper_of_match (i : Nat) (st : LoopState) (paper : ScanFile) (text : Str)
    (folders : List Folder) (k : Nat) (folder : Folder)
    (htext : paper.text = some text) (hstep : matchStep i st text = (folders, some k))
    (hk : folders[k]? = some folder) :
    processPaper i st paper =
      ⟨folders.set k (addPaper folder ⟨paper.url, paper.name, storedYear text⟩), some k⟩ := by
  simp [processPaper, htext, hstep, hk]

theorem replace_space_of_no_space (code : Str) (h : code.filter isSpace = []) :
    replace code [' '] [] = code ∧ (code.filter fun c => !isSpace c) = code := by
  induction code with
  | nil => simp [replace]
  | cons c s ih =>
    have hc : isSpace c = false := by
      cases hc : isSpace c with
      | false => rfl
      | true => simp [List.filter_cons, hc] at h
    have hs : s.filter isSpace = [] := by simpa [List.filter_cons, hc] using h
    have hne : (c == ' ') = false := by
      cases hcs : c == ' ' with
      | false => rfl
      | true =>
        have : c = ' ' := by simpa using hcs
        subst this
        simp [isSpace] at hc
    obtain ⟨h1, h2⟩ := ih hs
    constructor
    · simp [replace, startsWith, hne, h1]
    · simp [List.filter_cons, hc, h2]

/-- On a code with at most one white-space character, a space, `replace(' ', '')` removes
all the white space of the code. -/
theorem replace_space_of_singleSpaced (code : Str) (h : singleSpaced code) :
    replace code [' '] [] = code.filter fun c => !isSpace c := by
  rcases h with h | h
  · obtain ⟨h1, h2⟩ := replace_space_of_no_space code h
    rw [h1, h2]
  · induction code with
    | nil => simp at h
    | cons c s ih =>
      cases hc : isSpace c with
      | false =>
        have hs : s.filter isSpace = [' '] := by simpa [List.filter_cons, hc] using h
        have hne : (c == ' ') = false := by
          cases hcs : c == ' ' with
          | false => rfl
          | true =>
            have : c = ' ' := by simpa using hcs
            subst this
            simp [isSpace] at hc
        simp [replace, startsWith, hne, ih hs, List.filter_cons, hc]
      | true =>
        simp only [List.filter_cons, hc, if_true, List.cons.injEq] at h
        obtain ⟨rfl, hs⟩ := h
        obtain ⟨-, h2⟩ := replace_space_of_no_space s hs
        simp [replace, startsWith, List.filter_cons, hc, h2]

theorem codeOccurs_of_singleSpaced (cleanText : Str) (folder : Folder)
    (h : singleSpaced folder.code) :
    codeOccurs cleanText folder = codeOccursNoSpace cleanText folder := by
  simp [codeOccurs, codeOccursNoSpace, replace_space_of_singleSpaced folder.code h]

/-- The step chooses the first folder that passes the callback of lines 113 to 122, which is
at or before the first folder that passes its code test, and is that folder when no folder
before it passes the name test. -/
theorem matchStep_of_code_match (i : Nat) (st : LoopState) (text : Str) (k : Nat)
    (hcode : findIndex (codeOccurs (toUpperCase text)) st.activeFolders = some k) :
    (∃ m, m ≤ k ∧ findIndex (folderMatches (toUpperCase text)) st.activeFolders = some m ∧
        matchStep i st text = (st.activeFolders, some m)) ∧
    ((∀ j, j < k → ∀ f, st.activeFolders[j]? = some f →
          nameOccurs (toUpperCase text) f = false) →
        matchStep i st text = (st.activeFolders, some k)) := by
  constructor
  · obtain ⟨m, hm, hfound⟩ := findIndex_le_of_imp (codeOccurs (toUpperCase text))
      (folderMatches (toUpperCase text)) st.activeFolders k
      (fun a ha => by rw [folderMatches_eq, ha]; rfl) hcode
    exact ⟨m, hm, hfound, matchStep_of_found i st text m hfound⟩
  · intro hname
    apply matchStep_of_found
    obtain ⟨⟨a, ha, hpa⟩, hbefore⟩ := (findIndex_eq_some_iff _ _ _).1 hcode
    refine (findIndex_eq_some_iff _ _ _).2 ⟨⟨a, ha, ?_⟩, ?_⟩
    · rw [folderMatches_eq, hpa]; rfl
    · intro j hj b hb
      rw [folderMatches_eq, hbefore j hj b hb, hname j hj b hb]; rfl

/-- When no folder passes the code test of lines 114 and 115, the step chooses the first
folder that passes the name test and the paper is stored there. -/
theorem matchStep_of_name_match (i : Nat) (st : LoopState) (paper : ScanFile) (text : Str)
    (k : Nat) (htext : paper.text = some text)
    (hcode : ∀ f ∈ st.activeFolders, codeOccurs (toUpperCase text) f = false)
    (hname : findIndex (nameOccurs (toUpperCase text)) st.activeFolders = some k) :
    matchStep i st text = (st.activeFolders, some k) ∧
    (∃ folder, st.activeFolders[k]? = some folder ∧
      processPaper i st paper =
        ⟨st.activeFolders.set k (addPaper folder ⟨paper.url, paper.name, storedYear text⟩),
          some k⟩) ∧
    (processPaper i st paper).activeFolders.length = st.activeFolders.length := by
  have hfound : findIndex (folderMatches (toUpperCase text)) st.activeFolders = some k := by
    rw [← hname]
    apply findIndex_congr
    intro f hf
    rw [folderMatches_eq, hcode f hf]; rfl
  have hstep := matchStep_of_found i st text k hfound
  obtain ⟨⟨folder, hfolder, -⟩, -⟩ := (findIndex_eq_some_iff _ _ _).1 hname
  have hproc := processPaper_of_match i st paper text _ k folder htext hstep hfolder
  exact ⟨hstep, ⟨folder, hfolder, hproc⟩, by rw [hproc]; simp⟩

/-- C1 (as stated) fails in two ways.  On the seed folders and the text
"CIR 405 Data Driven Websites" the first folder whose code occurs is CIR 405 (index 1),
but CIT 417 (index 0) has three significant name words in the text and the step chooses
index 0.  On `detectedFolders` and the text "ABC123" the code of the folder "ABC  123"
(index 6) occurs with its white space removed, but line 115 removes only the first space,
no folder passes, and the step appends a ninth folder and chooses it. -/
theorem code_precedence_counterexample :
    (findIndex (codeOccursNoSpace (toUpperCase "CIR 405 Data Driven Websites".toList))
        initialResults = some 1 ∧
      (foundWords (toUpperCase "CIR 405 Data Driven Websites".toList)
        "CIT 417: Data Driven Websites".toList).length = 3 ∧
      matchStep 0 ⟨initialResults, none⟩ "CIR 405 Data Driven Websites".toList
        = (initialResults, some 0)) ∧
    (findIndex (codeOccursNoSpace (toUpperCase "ABC123".toList)) detectedFolders = some 6 ∧
      detectedFolders.length = 8 ∧
      (matchStep 2 ⟨detectedFolders, some 7⟩ "ABC123".toList).2 = some 8 ∧
      (matchStep 2 ⟨detectedFolders, some 7⟩ "ABC123".toList).1.length = 9) := by
  decide!

/-- C1 (amended): let every folder's code have at most one white-space character, a
space.  When the uppercased text contains the code of some folder (verbatim or with its
white space removed) and `k` is the first such folder, the step chooses the first folder
whose code so occurs or whose name has two or more significant words in the text; that
folder is at or before `k`, no folder is created, and it is `k` itself whenever no folder
before `k` has two or more significant name words in the text. -/
theorem existing_folder_first_match (i : Nat) (st : LoopState) (text : Str) (k : Nat)
    (hcodes : ∀ f ∈ st.activeFolders, singleSpaced f.code)
    (hcode : findIndex (codeOccursNoSpace (toUpperCase text)) st.activeFolders = some k) :
    (∃ m, m ≤ k ∧
        findIndex (fun f => codeOccursNoSpace (toUpperCase text) f
          || nameOccurs (toUpperCase text) f) st.activeFolders = some m ∧
        matchStep i st text = (st.activeFolders, some m)) ∧
    ((∀ j, j < k → ∀ f, st.activeFolders[j]? = some f →
          nameOccurs (toUpperCase text) f = false) →
        matchStep i st text = (st.activeFolders, some k)) := by
  have hsame : findIndex (codeOccurs (toUpperCase text)) st.activeFolders = some k := by
    rw [← hcode]
    exact findIndex_congr _ _ _ fun f hf => codeOccurs_of_singleSpaced _ f (hcodes f hf)
  obtain ⟨⟨m, hm, hfound, hstep⟩, hk⟩ := matchStep_of_code_match i st text k hsame
  refine ⟨⟨m, hm, ?_, hstep⟩, hk⟩
  rw [← hfound]
  apply findIndex_congr
  intro f hf
  rw [folderMatches_eq, codeOccurs_of_singleSpaced _ f (hcodes f hf)]

theorem existing_folder_first_match_witness :
    (∀ f ∈ initialResults, singleSpaced f.code) ∧
      findIndex (codeOccursNoSpace (toUpperCase "CIR 405 Distributed Systems 2022".toList))
        initialResults = some 1 ∧
      matchStep 2 ⟨initialResults, some 0⟩ "CIR 405 Distributed Systems 2022".toList
        = (initialResults, some 1) :=
  ⟨by decide!, by decide!,
    (existing_folder_first_match 2 ⟨initialResults, some 0⟩
      "CIR 405 Distributed Systems 2022".toList 1 (by decide!) (by decide!)).2 (by decide!)⟩

/-- C2, at the failing input, on folders the loop itself produces.  In `detectedFolders` the
text "ABC 123 QUANTUM COMPUTING" contains no folder's code, neither verbatim nor with its
white space removed, and the first folder with two significant name words in the text is
"XYZ 999: Quantum Computing" (index 7); but line 115 removes only the first space of the
code "ABC  123", finds "ABC 123" in the text, and the step chooses index 6. -/
theorem fuzzy_name_counterexample :
    detectedFolders.map (fun f => f.code)
      = ["CIT 417".toList, "CIR 405".toList, "CIT 423".toList, "BBE 401".toList,
          "CIR 401".toList, "CIT 421".toList, "ABC  123".toList, "XYZ 999".toList] ∧
    (∀ f ∈ detectedFolders,
      codeOccursNoSpace (toUpperCase "ABC 123 QUANTUM COMPUTING".toList) f = false) ∧
    findIndex (nameOccurs (toUpperCase "ABC 123 QUANTUM COMPUTING".toList)) detectedFolders
      = some 7 ∧
    matchStep 2 ⟨detectedFolders, some 7⟩ "ABC 123 QUANTUM COMPUTING".toList
      = (detectedFolders, some 6) := by
  decide!

/-- A code without a space is left as it is by `replace(' ', '')`. -/
theorem replace_space_of_not_mem (code : Str) (h : ' ' ∉ code) :
    replace code [' '] [] = code := by
  induction code with
  | nil => simp [replace]
  | cons c s ih =>
    have hc : (c == ' ') = false := by
      cases hcs : c == ' ' with
      | false => rfl
      | true =>
        have : c = ' ' := by simpa using hcs
        subst this
        simp at h
    have hs : ' ' ∉ s := fun hmem => h (List.mem_cons_of_mem _ hmem)
    simp [replace, startsWith, hc, ih hs]

/-- Rule 2 where line 115 misses no white space: let every folder's code either have no
space at all or have one white-space character, a space.  When no folder's code occurs in
the uppercased text (neither verbatim nor with its white space removed) and `k` is the
first folder with at least two significant words of its name part in the uppercased text,
the step chooses `k` without looking for a code pattern: the paper is added to folder `k`
and the number of folders is unchanged. -/
theorem fuzzy_name_match (i : Nat) (st : LoopState) (paper : ScanFile) (text : Str) (k : Nat)
    (htext : paper.text = some text)
    (hcodes : ∀ f ∈ st.activeFolders, ' ' ∉ f.code ∨ singleSpaced f.code)
    (hcode : ∀ f ∈ st.activeFolders, codeOccursNoSpace (toUpperCase text) f = false)
    (hname : findIndex (nameOccurs (toUpperCase text)) st.activeFolders = some k) :
    matchStep i st text = (st.activeFolders, some k) ∧
    (∃ folder, st.activeFolders[k]? = some folder ∧
      processPaper i st paper =
        ⟨st.activeFolders.set k (addPaper folder ⟨paper.url, paper.name, storedYear text⟩),
          some k⟩) ∧
    (processPaper i st paper).activeFolders.length = st.activeFolders.length :=
  matchStep_of_name_match i st paper text k htext
    (fun f hf => by
      rcases hcodes f hf with h | h
      · have hc := hcode f hf
        simp only [codeOccursNoSpace, Bool.or_eq_false_iff] at hc
        simp [codeOccurs, replace_space_of_not_mem f.code h, hc.1]
      · rw [codeOccurs_of_singleSpaced _ f h]; exact hcode f hf) hname

/-- The same on a registry the loop produces, with a code that has a tab and no space: the
page "TAB\t123 Intro" creates the folder "TAB\t123", and the text "TAB 123 Information
Systems", in which no code occurs, goes to the first folder with two name words in it. -/
theorem fuzzy_name_match_witness :
    (processFiles initialResults [tabPage]).map (fun f => f.code)
        = (initialResults.map fun f => f.code) ++ ["TAB\t123".toList] ∧
      (∀ f ∈ processFiles initialResults [tabPage], ' ' ∉ f.code ∨ singleSpaced f.code) ∧
      (∀ f ∈ processFiles initialResults [tabPage],
        codeOccursNoSpace (toUpperCase "TAB 123 Information Systems".toList) f = false) ∧
      findIndex (nameOccurs (toUpperCase "TAB 123 Information Systems".toList))
        (processFiles initialResults [tabPage]) = some 4 ∧
      jsMatch codePattern (toUpperCase "TAB 123 Information Systems".toList)
        = some "TAB 123".toList ∧
      matchStep 1 ⟨processFiles initialResults [tabPage], some 6⟩
          "TAB 123 Information Systems".toList
        = (processFiles initialResults [tabPage], some 4) :=
  ⟨by decide!, by decide!, by decide!, by decide!, by decide!,
    (fuzzy_name_match 1 ⟨processFiles initialResults [tabPage], some 6⟩
      ⟨"b.jpg".toList, "b.jpg".toList, some "TAB 123 Information Systems".toList⟩
      "TAB 123 Information Systems".toList 4 rfl (by decide!) (by decide!) (by decide!)).1⟩

/-! ## The shape of a match of the code pattern -/

theorem one_matched (p : Char → Bool) (c c' : Cursor) (h : c' ∈ one p c) :
    ∃ x, p x = true ∧ c'.matched = c.matched ++ [x] := by
  unfold one at h
  cases hrest : c.rest with
  | nil => simp [hrest] at h
  | cons x r =>
    by_cases hp : p x = true
    · simp only [hrest, hp, if_true, List.mem_singleton] at h
      exact ⟨x, hp, by rw [h]⟩
    · simp [hrest, hp] at h

theorem opt_matched (p : Char → Bool) (c c' : Cursor) (h : c' ∈ opt p c) :
    ∃ w, c'.matched = c.matched ++ w ∧ (w = [] ∨ ∃ x, w = [x] ∧ p x = true) := by
  unfold opt at h
  rcases List.mem_append.1 h with h | h
  · obtain ⟨x, hx, e⟩ := one_matched p c c' h
    exact ⟨[x], e, Or.inr ⟨x, rfl, hx⟩⟩
  · simp only [List.mem_singleton] at h
    exact ⟨[], by simp [h], Or.inl rfl⟩

theorem wordBoundary_matched (c c' : Cursor) (h : c' ∈ wordBoundary c) :
    c'.matched = c.matched := by
  unfold wordBoundary at h
  split at h
  · simp only [List.mem_singleton] at h
    rw [h]
  · simp at h

theorem mem_andThen (f g : Pattern) (c c' : Cursor) :
    c' ∈ andThen f g c ↔ ∃ d, d ∈ f c ∧ c' ∈ g d := by
  simp [andThen, List.mem_flatMap]

theorem execFrom_some (re : Pattern) (prev : Option Char) (s m : Str)
    (h : execFrom re prev s = some m) :
    ∃ prev' s' c', c' ∈ re ⟨prev', [], s'⟩ ∧ c'.matched = m := by
  induction s generalizing prev with
  | nil =>
    simp only [execFrom, Option.map_eq_some'] at h
    obtain ⟨c', hc', rfl⟩ := h
    exact ⟨prev, [], c', List.mem_of_mem_head? hc', rfl⟩
  | cons x r ih =>
    unfold execFrom at h
    split at h
    · rename_i c' hc'
      simp only [Option.some.injEq] at h
      exact ⟨prev, x :: r, c', List.mem_of_mem_head? hc', h⟩
    · exact ih (some x) h

/-- What one attempt of the code pattern consumes: three capitals, at most one white-space
character or hyphen, at most one colon, at most one white-space character, three digits
and at most one more digit. -/
theorem codePattern_shape (c c' : Cursor) (h : c' ∈ codePattern c) :
    ∃ (a b d d1 d2 d3 : Char) (X Y Z D : Str),
      c'.matched = c.matched ++ [a, b, d] ++ X ++ Y ++ Z ++ [d1, d2, d3] ++ D ∧
      isCapital a = true ∧ isCapital b = true ∧ isCapital d = true ∧
      (X = [] ∨ ∃ x, X = [x] ∧ (isSpace x || x == '-') = true) ∧
      (Y = [] ∨ Y = [':']) ∧
      (Z = [] ∨ ∃ z, Z = [z] ∧ isSpace z = true) ∧
      isDigit d1 = true ∧ isDigit d2 = true ∧ isDigit d3 = true ∧
      (D = [] ∨ ∃ d4, D = [d4] ∧ isDigit d4 = true) := by
  unfold codePattern at h
  simp only [mem_andThen] at h
  obtain ⟨c0, h0, c1, h1, c2, h2, c3, h3, c4, h4, c5, h5, c6, h6, c7, h7, c8, h8, c9, h9,
    c10, h10, h11⟩ := h
  have e0 := wordBoundary_matched _ _ h0
  obtain ⟨a, ha, e1⟩ := one_matched _ _ _ h1
  obtain ⟨b, hb, e2⟩ := one_matched _ _ _ h2
  obtain ⟨d, hd, e3⟩ := one_matched _ _ _ h3
  obtain ⟨X, e4, hX⟩ := opt_matched _ _ _ h4
  obtain ⟨Y, e5, hY⟩ := opt_matched _ _ _ h5
  obtain ⟨Z, e6, hZ⟩ := opt_matched _ _ _ h6
  obtain ⟨d1, hd1, e7⟩ := one_matched _ _ _ h7
  obtain ⟨d2, hd2, e8⟩ := one_matched _ _ _ h8
  obtain ⟨d3, hd3, e9⟩ := one_matched _ _ _ h9
  obtain ⟨D, e10, hD⟩ := opt_matched _ _ _ h10
  have e11 := wordBoundary_matched _ _ h11
  refine ⟨a, b, d, d1, d2, d3, X, Y, Z, D, ?_, ha, hb, hd, hX, ?_, hZ, hd1, hd2, hd3, hD⟩
  · rw [e11, e10, e9, e8, e7, e6, e5, e4, e3, e2, e1, e0]
    simp
  · rcases hY with h | ⟨y, hy, hcolon⟩
    · exact Or.inl h
    · have : y = ':' := by simpa using hcolon
      subst this
      exact Or.inr hy

theorem capital_facts (a : Char) (h : isCapital a = true) :
    (a == ':') = false ∧ (a == '-') = false ∧ isSpace a = false := by
  refine ⟨?_, ?_, ?_⟩
  · cases hc : a == ':' with
    | false => rfl
    | true =>
      have : a = ':' := by simpa using hc
      subst this
      exact absurd h (by decide)
  · cases hc : a == '-' with
    | false => rfl
    | true =>
      have : a = '-' := by simpa using hc
      subst this
      exact absurd h (by decide)
  · simp only [isCapital, Bool.and_eq_true, decide_eq_true_eq] at h
    simp only [isSpace, Bool.or_eq_false_iff, Bool.and_eq_false_imp, beq_eq_false_iff_ne,
      decide_eq_true_eq, decide_eq_false_iff_not, ne_eq]
    omega

theorem digit_facts (a : Char) (h : isDigit a = true) :
    (a == ':') = false ∧ (a == '-') = false ∧ isSpace a = false := by
  refine ⟨?_, ?_, ?_⟩
  · cases hc : a == ':' with
    | false => rfl
    | true =>
      have : a = ':' := by simpa using hc
      subst this
      exact absurd h (by decide)
  · cases hc : a == '-' with
    | false => rfl
    | true =>
      have : a = '-' := by simpa using hc
      subst this
      exact absurd h (by decide)
  · simp only [isDigit, Bool.and_eq_true, decide_eq_true_eq] at h
    simp only [isSpace, Bool.or_eq_false_iff, Bool.and_eq_false_imp, beq_eq_false_iff_ne,
      decide_eq_true_eq, decide_eq_false_iff_not, ne_eq]
    omega

theorem space_facts (a : Char) (h : isSpace a = true) :
    (a == ':') = false ∧ (a == '-') = false := by
  refine ⟨?_, ?_⟩
  · cases hc : a == ':' with
    | false => rfl
    | true =>
      have : a = ':' := by simpa using hc
      subst this
      exact absurd h (by decide)
  · cases hc : a == '-' with
    | false => rfl
    | true =>
      have : a = '-' := by simpa using hc
      subst this
      exact absurd h (by decide)

/-- On a match of the code pattern, replacing the first colon and the first hyphen is
replacing all of them, and the result is not empty. -/
theorem normalizeCode_of_match (s m : Str) (h : jsMatch codePattern s = some m) :
    normalizeCode m = normalizedPattern m ∧ normalizeCode m ≠ [] := by
  obtain ⟨prev, s', c', hc', rfl⟩ := execFrom_some codePattern none s m h
  obtain ⟨a, b, d, d1, d2, d3, X, Y, Z, D, e, ha, hb, hd, hX, hY, hZ, h1, h2, h3, hD⟩ :=
    codePattern_shape _ _ hc'
  have hcap : ∀ c, isCapital c = true → ¬ c = ':' ∧ ¬ c = '-' ∧ isSpace c = false :=
    fun c hc => ⟨by simpa using (capital_facts c hc).1, by simpa using (capital_facts c hc).2.1,
      (capital_facts c hc).2.2⟩
  have hdig : ∀ c, isDigit c = true → ¬ c = ':' ∧ ¬ c = '-' ∧ isSpace c = false :=
    fun c hc => ⟨by simpa using (digit_facts c hc).1, by simpa using (digit_facts c hc).2.1,
      (digit_facts c hc).2.2⟩
  have hsp : ∀ c, isSpace c = true → ¬ c = ':' ∧ ¬ c = '-' :=
    fun c hc => ⟨by simpa using (space_facts c hc).1, by simpa using (space_facts c hc).2⟩
  obtain ⟨a1, a2, a3⟩ := hcap a ha
  obtain ⟨b1, b2, b3⟩ := hcap b hb
  obtain ⟨c1, c2, c3⟩ := hcap d hd
  obtain ⟨p1, p2, p3⟩ := hdig d1 h1
  obtain ⟨q1, q2, q3⟩ := hdig d2 h2
  obtain ⟨r1, r2, r3⟩ := hdig d3 h3
  have hD' : D = [] ∨ ∃ d4, D = [d4] ∧ ¬ d4 = ':' ∧ ¬ d4 = '-' ∧ isSpace d4 = false := by
    rcases hD with h | ⟨d4, h, h4⟩
    · exact Or.inl h
    · exact Or.inr ⟨d4, h, hdig d4 h4⟩
  have hZ' : Z = [] ∨ ∃ z, Z = [z] ∧ ¬ z = ':' ∧ ¬ z = '-' ∧ isSpace z = true := by
    rcases hZ with h | ⟨z, h, hz⟩
    · exact Or.inl h
    · exact Or.inr ⟨z, h, (hsp z hz).1, (hsp z hz).2, hz⟩
  have hX' : X = [] ∨ X = ['-'] ∨ ∃ x, X = [x] ∧ ¬ x = ':' ∧ ¬ x = '-' ∧ isSpace x = true := by
    rcases hX with h | ⟨x, h, hx⟩
    · exact Or.inl h
    · rcases Bool.or_eq_true_iff.1 hx with hx | hx
      · exact Or.inr (Or.inr ⟨x, h, (hsp x hx).1, (hsp x hx).2, hx⟩)
      · have : x = '-' := by simpa using hx
        subst this
        exact Or.inr (Or.inl h)
  rw [e]
  rcases hD' with rfl | ⟨d4, rfl, s1, s2, s3⟩ <;>
    rcases hZ' with rfl | ⟨z, rfl, z1, z2, z3⟩ <;>
    rcases hY with rfl | rfl <;>
    rcases hX' with rfl | rfl | ⟨x, rfl, x1, x2, x3⟩ <;>
    simp [normalizeCode, normalizedPattern, replace, startsWith, trim, *]

/-- C3: when the first `findIndex` finds nothing, the code pattern matches `m`, and no
folder has the code `normalizeCode m`, the step appends a folder with that code, which is
the match with its colons stripped, its hyphens replaced by spaces, and trimmed, and chooses
it; the iteration stores the paper in it; and the step on the same text against the folders
after the iteration (or right after the detection), for any document index and any last
matched index, chooses that same folder and appends nothing. -/
theorem detected_folder_reclassified (i : Nat) (st : LoopState) (paper : ScanFile) (text m : Str)
    (htext : paper.text = some text)
    (hnone : findIndex (folderMatches (toUpperCase text)) st.activeFolders = none)
    (hm : jsMatch codePattern (toUpperCase text) = some m)
    (hnew : findIndex (fun f => f.code == normalizeCode m) st.activeFolders = none) :
    let created : Folder :=
      { code := normalizeCode m, name := detectedName text m (normalizeCode m),
        count := 0, papers := [] }
    let stored : Folder := addPaper created ⟨paper.url, paper.name, storedYear text⟩
    matchStep i st text = (st.activeFolders ++ [created], some st.activeFolders.length) ∧
    processPaper i st paper =
      ⟨st.activeFolders ++ [stored], some st.activeFolders.length⟩ ∧
    stored.code = normalizeCode m ∧ stored.code = normalizedPattern m ∧
    ∀ (j : Nat) (last : Option Nat),
      matchStep j ⟨st.activeFolders ++ [stored], last⟩ text
          = (st.activeFolders ++ [stored], some st.activeFolders.length) ∧
      matchStep j ⟨st.activeFolders ++ [created], last⟩ text
          = (st.activeFolders ++ [created], some st.activeFolders.length) := by
  intro created stored
  have hstep : matchStep i st text
      = (st.activeFolders ++ [created], some st.activeFolders.length) := by
    simp [matchStep, newFolder, sticky, hnone, hm, hnew, created]
  have hproc : processPaper i st paper
      = ⟨st.activeFolders ++ [stored], some st.activeFolders.length⟩ := by
    rw [processPaper_of_match i st paper text _ _ created htext hstep (by simp)]
    simp [stored]
  have again : ∀ (g : Folder), g.code = normalizeCode m → ∀ (j : Nat) (last : Option Nat),
      matchStep j ⟨st.activeFolders ++ [g], last⟩ text
        = (st.activeFolders ++ [g], some st.activeFolders.length) := by
    intro g hg j last
    have h1 := findIndex_append_of_none (folderMatches (toUpperCase text)) st.activeFolders [g]
      hnone
    have h2 := findIndex_append_of_none (fun f => f.code == normalizeCode m) st.activeFolders [g]
      hnew
    cases hfm : folderMatches (toUpperCase text) g with
    | true =>
      apply matchStep_of_found
      rw [h1, findIndex_cons_pos _ _ _ hfm]
      simp
    | false =>
      rw [findIndex_cons_neg _ _ _ hfm] at h1
      rw [findIndex_cons_pos _ _ _ (by simp [hg])] at h2
      simp [matchStep, newFolder, sticky, h1, h2, hm, findIndex]
  exact ⟨hstep, hproc, rfl, (normalizeCode_of_match _ m hm).1,
    fun j last => ⟨again stored rfl j last, again created rfl j last⟩⟩

theorem detected_folder_reclassified_witness :
    findIndex (folderMatches (toUpperCase "MAT:2011 Calculus".toList)) initialResults = none ∧
    jsMatch codePattern (toUpperCase "MAT:2011 Calculus".toList) = some "MAT:2011".toList ∧
    findIndex (fun f => f.code == normalizeCode "MAT:2011".toList) initialResults = none ∧
    normalizeCode "MAT:2011".toList = "MAT2011".toList ∧
    matchStep 1 ⟨initialResults ++ [addPaper
        { code := normalizeCode "MAT:2011".toList,
          name := detectedName "MAT:2011 Calculus".toList "MAT:2011".toList
            (normalizeCode "MAT:2011".toList),
          count := 0, papers := [] }
        ⟨"a.jpg".toList, "a.jpg".toList, storedYear "MAT:2011 Calculus".toList⟩], some 6⟩
        "MAT:2011 Calculus".toList
      = (initialResults ++ [addPaper
        { code := normalizeCode "MAT:2011".toList,
          name := detectedName "MAT:2011 Calculus".toList "MAT:2011".toList
            (normalizeCode "MAT:2011".toList),
          count := 0, papers := [] }
        ⟨"a.jpg".toList, "a.jpg".toList, storedYear "MAT:2011 Calculus".toList⟩],
        some initialResults.length) :=
  ⟨by decide!, by decide!, by decide!, by decide!,
    ((detected_folder_reclassified 0 ⟨initialResults, none⟩
      ⟨"a.jpg".toList, "a.jpg".toList, some "MAT:2011 Calculus".toList⟩
      "MAT:2011 Calculus".toList "MAT:2011".toList rfl (by decide!) (by decide!)
      (by decide!)).2.2.2.2 1 (some 6)).1⟩

/-! ## The run as a sequence of iterations -/

theorem loopFrom_append (j : Nat) (st : LoopState) (l : List ScanFile) (x : ScanFile) :
    loopFrom j st (l ++ [x]) = processPaper (j + l.length) (loopFrom j st l) x := by
  induction l generalizing j st with
  | nil => simp [loopFrom]
  | cons a l ih =>
    have : j + 1 + l.length = j + (l.length + 1) := by omega
    rw [List.cons_append, loopFrom, ih, List.length_cons, loopFrom, this]

theorem stateBefore_zero (results : List Folder) (files : List ScanFile) :
    stateBefore results files 0 = ⟨results, none⟩ := by
  simp [stateBefore, loopFrom]

theorem stateBefore_succ (results : List Folder) (files : List ScanFile) (i : Nat)
    (paper : ScanFile) (h : files[i]? = some paper) :
    stateBefore results files (i + 1) = processPaper i (stateBefore results files i) paper := by
  have hlt : i < files.length := (List.getElem?_eq_some.1 h).1
  unfold stateBefore
  rw [List.take_succ, h, Option.toList_some, loopFrom_append]
  simp [List.length_take, Nat.min_eq_left (Nat.le_of_lt hlt)]

theorem processFiles_eq_stateBefore (results : List Folder) (files : List ScanFile) :
    processFiles results files = (stateBefore results files files.length).activeFolders := by
  simp [processFiles, stateBefore]

theorem findIndex_folderMatches_labels (cleanText : Str) (fs gs : List Folder)
    (h : labels fs = labels gs) :
    findIndex (folderMatches cleanText) fs = findIndex (folderMatches cleanText) gs := by
  induction fs generalizing gs with
  | nil =>
    cases gs with
    | nil => rfl
    | cons g gs => simp [labels] at h
  | cons f fs ih =>
    cases gs with
    | nil => simp [labels] at h
    | cons g gs =>
      simp only [labels, List.map_cons, List.cons.injEq, Prod.mk.injEq] at h
      have hfg : folderMatches cleanText f = folderMatches cleanText g := by
        simp [folderMatches, nameOccurs, h.1.1, h.1.2]
      simp only [findIndex, hfg, ih gs h.2]

theorem labels_set_addPaper (fs : List Folder) (k : Nat) (f : Folder) (p : Paper)
    (h : fs[k]? = some f) : labels (fs.set k (addPaper f p)) = labels fs := by
  induction fs generalizing k with
  | nil => simp
  | cons a fs ih =>
    cases k with
    | zero =>
      simp only [List.getElem?_cons_zero, Option.some.injEq] at h
      subst h
      simp [labels, addPaper]
    | succ k =>
      simp only [List.getElem?_cons_succ] at h
      have := ih k h
      simp only [labels] at this
      simp [labels, this]

theorem matchStep_of_sticky (i : Nat) (st : LoopState) (text : Str) (B : Nat) (hi : 0 < i)
    (hlast : st.lastMatchedIndex = some B)
    (hnone : findIndex (folderMatches (toUpperCase text)) st.activeFolders = none)
    (hnocode : jsMatch codePattern (toUpperCase text) = none) :
    matchStep i st text = (st.activeFolders, some B) := by
  simp [matchStep, newFolder, sticky, hnone, hnocode, hlast, hi]

/-- C4: the marker test of the sticky block has no effect at any iteration of any run (at
iteration 0 the last matched index is unset, later `i > 0` holds); and when document
`i - 1` was recognised and stored in folder `B`, a recognised document `i > 0` whose text
passes no folder's test and contains no code pattern is stored in folder `B`, with or
without a marker in its text. -/
theorem sticky_fallback (results : List Folder) (files : List ScanFile) (i B : Nat)
    (prev paper : ScanFile) (prevText text : Str) (fs : List Folder) (target : Folder)
    (hi : 0 < i)
    (hprev : files[i - 1]? = some prev) (hprevText : prev.text = some prevText)
    (hassigned : matchStep (i - 1) (stateBefore results files (i - 1)) prevText = (fs, some B))
    (htarget : fs[B]? = some target)
    (hpaper : files[i]? = some paper) (htext : paper.text = some text)
    (hnone : findIndex (folderMatches (toUpperCase text))
      (stateBefore results files i).activeFolders = none)
    (hnocode : jsMatch codePattern (toUpperCase text) = none) :
    (∀ (n : Nat) (cleanText : Str) (m : Option Nat),
      sticky n cleanText (stateBefore results files n).lastMatchedIndex m
        = if m.isSome then m else (stateBefore results files n).lastMatchedIndex) ∧
    (stateBefore results files i).lastMatchedIndex = some B ∧
    matchStep i (stateBefore results files i) text
      = ((stateBefore results files i).activeFolders, some B) ∧
    ∃ folder, (stateBefore results files i).activeFolders[B]? = some folder ∧
      stateBefore results files (i + 1) =
        ⟨(stateBefore results files i).activeFolders.set B
            (addPaper folder ⟨paper.url, paper.name, storedYear text⟩), some B⟩ := by
  have hstate : stateBefore results files i
      = ⟨fs.set B (addPaper target ⟨prev.url, prev.name, storedYear prevText⟩), some B⟩ := by
    have := stateBefore_succ results files (i - 1) prev hprev
    rw [Nat.sub_add_cancel hi] at this
    rw [this]
    exact processPaper_of_match _ _ prev prevText fs B target hprevText hassigned htarget
  have hstep : matchStep i (stateBefore results files i) text
      = ((stateBefore results files i).activeFolders, some B) := by
    exact matchStep_of_sticky i _ text B hi (by rw [hstate]) hnone hnocode
  have hB : B < fs.length := (List.getElem?_eq_some.1 htarget).1
  refine ⟨?_, by rw [hstate], hstep, ?_⟩
  · intro n cleanText m
    cases m with
    | some k => cases hl : (stateBefore results files n).lastMatchedIndex <;> simp [sticky]
    | none =>
      cases n with
      | zero => simp [stateBefore_zero, sticky]
      | succ n => cases hl : (stateBefore results files (n + 1)).lastMatchedIndex <;> simp [sticky]
  · have hex : ∃ folder, (stateBefore results files i).activeFolders[B]? = some folder := by
      rw [hstate]
      exact ⟨_, List.getElem?_eq_some.2 ⟨by simpa using hB, rfl⟩⟩
    obtain ⟨folder, hfolder⟩ := hex
    refine ⟨folder, hfolder, ?_⟩
    rw [stateBefore_succ results files i paper hpaper]
    exact processPaper_of_match _ _ paper text _ B folder htext hstep hfolder

theorem sticky_fallback_witness :
    (isBodyPage (toUpperCase "Question 3: compare the two designs".toList) = true ∧
      findIndex (folderMatches (toUpperCase "Question 3: compare the two designs".toList))
        (stateBefore initialResults [headerPage, questionPage] 1).activeFolders = none ∧
      jsMatch codePattern (toUpperCase "Question 3: compare the two designs".toList) = none ∧
      matchStep 1 (stateBefore initialResults [headerPage, questionPage] 1)
          "Question 3: compare the two designs".toList
        = ((stateBefore initialResults [headerPage, questionPage] 1).activeFolders, some 0)) ∧
    (isBodyPage (toUpperCase "Compare the two designs".toList) = false ∧
      matchStep 1 (stateBefore initialResults [headerPage, plainPage] 1)
          "Compare the two designs".toList
        = ((stateBefore initialResults [headerPage, plainPage] 1).activeFolders, some 0)) :=
  ⟨⟨by decide!, by decide!, by decide!,
      (sticky_fallback initialResults [headerPage, questionPage] 1 0 headerPage questionPage
        "CIT 417 Data Driven Websites Exam 2023".toList
        "Question 3: compare the two designs".toList initialResults
        ⟨"CIT 417".toList, "CIT 417: Data Driven Websites".toList, 0, []⟩
        (by decide) rfl rfl (by decide!) rfl rfl rfl (by decide!) (by decide!)).2.2.1⟩,
    ⟨by decide!,
      (sticky_fallback initialResults [headerPage, plainPage] 1 0 headerPage plainPage
        "CIT 417 Data Driven Websites Exam 2023".toList
        "Compare the two designs".toList initialResults
        ⟨"CIT 417".toList, "CIT 417: Data Driven Websites".toList, 0, []⟩
        (by decide) rfl rfl (by decide!) rfl rfl rfl (by decide!) (by decide!)).2.2.1⟩⟩

/-- C5: from the seed folders, the three texts of the example, whatever the files' urls
and names, leave two papers in CIT 417 (the second page in front, with the default year
2024, attached by the sticky block), one paper in CIR 405, the other four seed folders
empty, no new folder, and a match index at every iteration. -/
theorem worked_example (u1 n1 u2 n2 u3 n3 : Str) :
    processFiles initialResults
        [⟨u1, n1, some "CIT 417 Data Driven Websites Exam 2023".toList⟩,
         ⟨u2, n2, some "Question 1: ...".toList⟩,
         ⟨u3, n3, some "CIR 405 Distributed Systems 2022".toList⟩]
      = ⟨"CIT 417".toList, "CIT 417: Data Driven Websites".toList, 2,
          [⟨u2, n2, 2024⟩, ⟨u1, n1, 2023⟩]⟩
        :: ⟨"CIR 405".toList, "CIR 405: Distributed Systems".toList, 1, [⟨u3, n3, 2022⟩]⟩
        :: initialResults.drop 2 ∧
    (∀ f ∈ initialResults.drop 2, f.papers = []) ∧
    (∃ fs, processPaper 0 ⟨initialResults, none⟩
          ⟨u1, n1, some "CIT 417 Data Driven Websites Exam 2023".toList⟩ = ⟨fs, some 0⟩ ∧
      findIndex (folderMatches (toUpperCase "Question 1: ...".toList)) fs = none ∧
      jsMatch codePattern (toUpperCase "Question 1: ...".toList) = none ∧
      matchStep 1 ⟨fs, some 0⟩ "Question 1: ...".toList = (fs, some 0) ∧
      ∃ fs2, processPaper 1 ⟨fs, some 0⟩ ⟨u2, n2, some "Question 1: ...".toList⟩
          = ⟨fs2, some 0⟩ ∧
        matchStep 2 ⟨fs2, some 0⟩ "CIR 405 Distributed Systems 2022".toList
          = (fs2, some 1)) := by
  have e1 : matchStep 0 ⟨initialResults, none⟩ "CIT 417 Data Driven Websites Exam 2023".toList
      = (initialResults, some 0) := by decide!
  have y1 : storedYear "CIT 417 Data Driven Websites Exam 2023".toList = 2023 := by decide!
  have y2 : storedYear "Question 1: ...".toList = 2024 := by decide!
  have y3 : storedYear "CIR 405 Distributed Systems 2022".toList = 2022 := by decide!
  have n2' : findIndex (folderMatches (toUpperCase "Question 1: ...".toList)) initialResults
      = none := by decide!
  have c2 : jsMatch codePattern (toUpperCase "Question 1: ...".toList) = none := by decide!
  have m3 : findIndex (folderMatches (toUpperCase "CIR 405 Distributed Systems 2022".toList))
      initialResults = some 1 := by decide!
  have hinit : initialResults
      = ⟨"CIT 417".toList, "CIT 417: Data Driven Websites".toList, 0, []⟩
        :: ⟨"CIR 405".toList, "CIR 405: Distributed Systems".toList, 0, []⟩
        :: initialResults.drop 2 := by decide!
  have hrest : ∀ f ∈ initialResults.drop 2, f.papers = [] := by decide!
  generalize "CIT 417 Data Driven Websites Exam 2023".toList = t1 at *
  generalize "Question 1: ...".toList = t2 at *
  generalize "CIR 405 Distributed Systems 2022".toList = t3 at *
  generalize initialResults.drop 2 = rest at *
  generalize "CIT 417".toList = code0 at *
  generalize "CIT 417: Data Driven Websites".toList = name0 at *
  generalize "CIR 405".toList = code1 at *
  generalize "CIR 405: Distributed Systems".toList = name1 at *
  generalize initialResults = seed at *
  subst hinit
  -- iteration 0
  have s1 : processPaper 0 ⟨⟨code0, name0, 0, []⟩ :: ⟨code1, name1, 0, []⟩ :: rest, none⟩
      ⟨u1, n1, some t1⟩
      = ⟨addPaper ⟨code0, name0, 0, []⟩ ⟨u1, n1, storedYear t1⟩
          :: ⟨code1, name1, 0, []⟩ :: rest, some 0⟩ :=
    processPaper_of_match 0 ⟨_, none⟩ ⟨u1, n1, some t1⟩ t1 _ 0 ⟨code0, name0, 0, []⟩
      rfl e1 rfl
  -- iteration 1
  have l1 : labels (addPaper ⟨code0, name0, 0, []⟩ ⟨u1, n1, storedYear t1⟩
        :: ⟨code1, name1, 0, []⟩ :: rest)
      = labels (⟨code0, name0, 0, []⟩ :: ⟨code1, name1, 0, []⟩ :: rest) := rfl
  have n2'' := (findIndex_folderMatches_labels (toUpperCase t2) _ _ l1).trans n2'
  have e2 := matchStep_of_sticky 1 ⟨_, some 0⟩ t2 0 (by decide) rfl n2'' c2
  have s2 : processPaper 1 ⟨addPaper ⟨code0, name0, 0, []⟩ ⟨u1, n1, storedYear t1⟩
        :: ⟨code1, name1, 0, []⟩ :: rest, some 0⟩ ⟨u2, n2, some t2⟩
      = ⟨addPaper (addPaper ⟨code0, name0, 0, []⟩ ⟨u1, n1, storedYear t1⟩)
            ⟨u2, n2, storedYear t2⟩ :: ⟨code1, name1, 0, []⟩ :: rest, some 0⟩ :=
    processPaper_of_match 1 ⟨_, some 0⟩ ⟨u2, n2, some t2⟩ t2 _ 0
      (addPaper ⟨code0, name0, 0, []⟩ ⟨u1, n1, storedYear t1⟩) rfl e2 rfl
  -- iteration 2
  have l2 : labels (addPaper (addPaper ⟨code0, name0, 0, []⟩ ⟨u1, n1, storedYear t1⟩)
        ⟨u2, n2, storedYear t2⟩ :: ⟨code1, name1, 0, []⟩ :: rest)
      = labels (⟨code0, name0, 0, []⟩ :: ⟨code1, name1, 0, []⟩ :: rest) := rfl
  have m3' := (findIndex_folderMatches_labels (toUpperCase t3) _ _ l2).trans m3
  have e3 := matchStep_of_found 2 ⟨_, some 0⟩ t3 1 m3'
  have s3 : processPaper 2 ⟨addPaper (addPaper ⟨code0, name0, 0, []⟩ ⟨u1, n1, storedYear t1⟩)
        ⟨u2, n2, storedYear t2⟩ :: ⟨code1, name1, 0, []⟩ :: rest, some 0⟩ ⟨u3, n3, some t3⟩
      = ⟨addPaper (addPaper ⟨code0, name0, 0, []⟩ ⟨u1, n1, storedYear t1⟩)
            ⟨u2, n2, storedYear t2⟩
          :: addPaper ⟨code1, name1, 0, []⟩ ⟨u3, n3, storedYear t3⟩ :: rest, some 1⟩ :=
    processPaper_of_match 2 ⟨_, some 0⟩ ⟨u3, n3, some t3⟩ t3 _ 1
      ⟨code1, name1, 0, []⟩ rfl e3 (by simp)
  refine ⟨?_, hrest, ⟨_, s1, n2'', c2, e2, _, s2, e3⟩⟩
  have hrun : ∀ (r : List Folder) (a b c : ScanFile), processFiles r [a, b, c]
      = (processPaper 2 (processPaper 1 (processPaper 0 ⟨r, none⟩ a) b) c).activeFolders :=
    fun _ _ _ _ => rfl
  rw [hrun, s1, s2, s3, y1, y2, y3]
  simp [addPaper, sortPapers, insertPaper]

/-! ## Sorting -/

theorem insertPaper_perm (p : Paper) (l : List Paper) : (insertPaper p l).Perm (p :: l) := by
  induction l with
  | nil => simp [insertPaper]
  | cons q l ih =>
    by_cases h : q.year ≤ p.year
    · simp [insertPaper, h]
    · simp only [insertPaper, h, if_false]
      exact (List.Perm.cons q ih).trans (List.Perm.swap p q l)

theorem sortPapers_perm (l : List Paper) : (sortPapers l).Perm l := by
  induction l with
  | nil => simp [sortPapers]
  | cons p l ih => exact (insertPaper_perm p _).trans (List.Perm.cons p ih)

theorem insertPaper_sorted (p : Paper) (l : List Paper) (h : YearSorted l) :
    YearSorted (insertPaper p l) := by
  induction l with
  | nil => simp [insertPaper, YearSorted]
  | cons q l ih =>
    unfold YearSorted at h ih ⊢
    by_cases hq : q.year ≤ p.year
    · simp only [insertPaper, hq, if_true]
      refine List.Pairwise.cons ?_ h
      intro b hb
      rcases List.mem_cons.1 hb with rfl | hb
      · exact hq
      · exact Nat.le_trans ((List.pairwise_cons.1 h).1 b hb) hq
    · simp only [insertPaper, hq, if_false]
      refine List.Pairwise.cons ?_ (ih (List.pairwise_cons.1 h).2)
      intro b hb
      rcases List.mem_cons.1 ((insertPaper_perm p l).mem_iff.1 hb) with rfl | hb
      · omega
      · exact (List.pairwise_cons.1 h).1 b hb

theorem sortPapers_sorted (l : List Paper) : YearSorted (sortPapers l) := by
  induction l with
  | nil => simp [sortPapers, YearSorted]
  | cons p l ih => exact insertPaper_sorted p _ ih

theorem ofYear_insertPaper (y : Nat) (p : Paper) (l : List Paper) :
    ofYear y (insertPaper p l) = ofYear y (p :: l) := by
  induction l with
  | nil => simp [insertPaper]
  | cons q l ih =>
    by_cases hq : q.year ≤ p.year
    · simp [insertPaper, hq]
    · simp only [insertPaper, hq, if_false]
      unfold ofYear at ih ⊢
      by_cases hy : p.year = y
      · have hqy : ¬ q.year = y := by omega
        simp [List.filter_cons, hy, hqy, ih]
      · simp [List.filter_cons, hy, ih]

theorem ofYear_sortPapers (y : Nat) (l : List Paper) : ofYear y (sortPapers l) = ofYear y l := by
  induction l with
  | nil => simp [sortPapers]
  | cons p l ih =>
    rw [sortPapers, ofYear_insertPaper]
    unfold ofYear at ih ⊢
    simp [List.filter_cons, ih]

/-- Two ordered lists with the same papers of every year, in the same order, are equal. -/
theorem eq_of_sorted_of_ofYear (l₁ l₂ : List Paper) (h₁ : YearSorted l₁) (h₂ : YearSorted l₂)
    (h : ∀ y, ofYear y l₁ = ofYear y l₂) : l₁ = l₂ := by
  induction l₁ generalizing l₂ with
  | nil =>
    cases l₂ with
    | nil => rfl
    | cons b l₂ =>
      have := h b.year
      simp [ofYear] at this
  | cons a l₁ ih =>
    cases l₂ with
    | nil =>
      have := h a.year
      simp [ofYear] at this
    | cons b l₂ =>
      unfold YearSorted at h₁ h₂
      have ha : a ∈ ofYear a.year (b :: l₂) := by rw [← h]; simp [ofYear]
      have hb : b ∈ ofYear b.year (a :: l₁) := by rw [h]; simp [ofYear]
      have ha' : a ∈ b :: l₂ := (List.mem_filter.1 ha).1
      have hb' : b ∈ a :: l₁ := (List.mem_filter.1 hb).1
      have hab : a.year ≤ b.year := by
        rcases List.mem_cons.1 ha' with rfl | hmem
        · exact Nat.le_refl _
        · exact (List.pairwise_cons.1 h₂).1 a hmem
      have hba : b.year ≤ a.year := by
        rcases List.mem_cons.1 hb' with rfl | hmem
        · exact Nat.le_refl _
        · exact (List.pairwise_cons.1 h₁).1 b hmem
      have hyear : b.year = a.year := by omega
      have hhead := h a.year
      simp only [ofYear, List.filter_cons, hyear, beq_self_eq_true, if_true,
        List.cons.injEq] at hhead
      obtain ⟨rfl, -⟩ := hhead
      congr 1
      apply ih l₂ (List.pairwise_cons.1 h₁).2 (List.pairwise_cons.1 h₂).2
      intro y
      have hy := h y
      unfold ofYear at hy ⊢
      by_cases hay : a.year = y
      · simpa [List.filter_cons, hay] using hy
      · simpa [List.filter_cons, hay] using hy

theorem sortPapers_eq_self (l : List Paper) (h : YearSorted l) : sortPapers l = l :=
  eq_of_sorted_of_ofYear _ _ (sortPapers_sorted l) h fun y => ofYear_sortPapers y l

/-- Sorting after a push places the new paper behind the papers of its year or later and in
front of the papers of earlier years. -/
theorem sortPapers_push (l : List Paper) (p : Paper) (h : YearSorted l) :
    sortPapers (l ++ [p]) =
      (l.filter fun q => decide (p.year ≤ q.year)) ++
        p :: l.filter fun q => decide (q.year < p.year) := by
  apply eq_of_sorted_of_ofYear _ _ (sortPapers_sorted _)
  · unfold YearSorted at h ⊢
    rw [List.pairwise_append]
    refine ⟨h.sublist (List.filter_sublist _), ?_, ?_⟩
    · refine List.Pairwise.cons ?_ (h.sublist (List.filter_sublist _))
      intro b hb
      have := (List.mem_filter.1 hb).2
      simp at this
      omega
    · intro a ha b hb
      have h1 := (List.mem_filter.1 ha).2
      simp at h1
      rcases List.mem_cons.1 hb with rfl | hb
      · exact h1
      · have h2 := (List.mem_filter.1 hb).2
        simp at h2
        omega
  · intro y
    rw [ofYear_sortPapers]
    unfold ofYear
    simp only [List.filter_append, List.filter_cons, List.filter_nil, List.filter_filter]
    by_cases hy : p.year = y
    · subst hy
      have e1 : l.filter (fun a => (a.year == p.year) && decide (p.year ≤ a.year))
          = l.filter (fun a => a.year == p.year) := by
        apply List.filter_congr
        intro a _
        by_cases ha : a.year = p.year <;> simp [ha]
      have e2 : l.filter (fun a => (a.year == p.year) && decide (a.year < p.year)) = [] := by
        rw [List.filter_eq_nil_iff]
        intro a _
        by_cases ha : a.year = p.year <;> simp [ha]
      simp [e1, e2]
    · have hpy : (p.year == y) = false := by simpa using hy
      simp only [hpy]
      by_cases hlt : p.year < y
      · have e1 : l.filter (fun a => (a.year == y) && decide (p.year ≤ a.year))
            = l.filter (fun a => a.year == y) := by
          apply List.filter_congr
          intro a _
          by_cases ha : a.year = y
          · simp [ha]; omega
          · simp [ha]
        have e2 : l.filter (fun a => (a.year == y) && decide (a.year < p.year)) = [] := by
          rw [List.filter_eq_nil_iff]
          intro a _
          by_cases ha : a.year = y
          · simp [ha]; omega
          · simp [ha]
        simp [e1, e2]
      · have e1 : l.filter (fun a => (a.year == y) && decide (p.year ≤ a.year)) = [] := by
          rw [List.filter_eq_nil_iff]
          intro a _
          by_cases ha : a.year = y
          · simp [ha]; omega
          · simp [ha]
        have e2 : l.filter (fun a => (a.year == y) && decide (a.year < p.year))
            = l.filter (fun a => a.year == y) := by
          apply List.filter_congr
          intro a _
          by_cases ha : a.year = y
          · simp [ha]; omega
          · simp [ha]
        simp [e1, e2]

theorem foldl_addPaper_papers (folder : Folder) (added : List Paper) :
    YearSorted folder.papers →
    YearSorted (added.foldl addPaper folder).papers ∧
      (∀ y, ofYear y (added.foldl addPaper folder).papers = ofYear y (folder.papers ++ added)) ∧
      (added.foldl addPaper folder).papers.Perm (folder.papers ++ added) := by
  induction added generalizing folder with
  | nil => intro h; simp [h]
  | cons p rest ih =>
    intro _
    obtain ⟨h1, h2, h3⟩ := ih (addPaper folder p) (sortPapers_sorted _)
    refine ⟨h1, ?_, ?_⟩
    · intro y
      rw [List.foldl_cons, h2 y]
      simp only [addPaper, ofYear, List.filter_append]
      have := ofYear_sortPapers y (folder.papers ++ [p])
      simp only [ofYear, List.filter_append] at this
      rw [this, ← List.filter_append, ← List.filter_append, ← List.filter_append,
        List.append_assoc]
      rfl
    · rw [List.foldl_cons]
      refine h3.trans ?_
      simp only [addPaper]
      have := (sortPapers_perm (folder.papers ++ [p])).append_right rest
      simpa using this

/-- C6: starting from a folder whose papers are in order (an empty folder in particular),
after any sequence of additions by the loop (push, then sort) the papers are in
non-increasing order of year, the papers of each year stand in the order in which they were
added (behind the ones already there), nothing is lost or duplicated, and one addition
places the new paper behind every paper of its year or a later year and in front of every
paper of an earlier year. -/
theorem papers_sorted_stable (folder : Folder) (added : List Paper)
    (hsorted : YearSorted folder.papers) :
    YearSorted (added.foldl addPaper folder).papers ∧
    (∀ y, ofYear y (added.foldl addPaper folder).papers = ofYear y (folder.papers ++ added)) ∧
    (added.foldl addPaper folder).papers.Perm (folder.papers ++ added) ∧
    ∀ p : Paper, (addPaper folder p).papers =
      (folder.papers.filter fun q => decide (p.year ≤ q.year)) ++
        p :: folder.papers.filter fun q => decide (q.year < p.year) := by
  obtain ⟨h1, h2, h3⟩ := foldl_addPaper_papers folder added hsorted
  exact ⟨h1, h2, h3, fun p => sortPapers_push folder.papers p hsorted⟩

theorem papers_sorted_stable_witness :
    YearSorted ([] : List Paper) ∧
    ([⟨"a".toList, "a".toList, 2023⟩, ⟨"b".toList, "b".toList, 2024⟩,
        ⟨"c".toList, "c".toList, 2023⟩, ⟨"d".toList, "d".toList, 2024⟩].foldl addPaper
        ⟨"CIT 417".toList, "CIT 417: Data Driven Websites".toList, 0, []⟩).papers
      = [⟨"b".toList, "b".toList, 2024⟩, ⟨"d".toList, "d".toList, 2024⟩,
          ⟨"a".toList, "a".toList, 2023⟩, ⟨"c".toList, "c".toList, 2023⟩] ∧
    YearSorted ([⟨"a".toList, "a".toList, 2023⟩, ⟨"b".toList, "b".toList, 2024⟩,
        ⟨"c".toList, "c".toList, 2023⟩, ⟨"d".toList, "d".toList, 2024⟩].foldl addPaper
        ⟨"CIT 417".toList, "CIT 417: Data Driven Websites".toList, 0, []⟩).papers :=
  ⟨List.Pairwise.nil, by decide!,
    (papers_sorted_stable ⟨"CIT 417".toList, "CIT 417: Data Driven Websites".toList, 0, []⟩
      [⟨"a".toList, "a".toList, 2023⟩, ⟨"b".toList, "b".toList, 2024⟩,
        ⟨"c".toList, "c".toList, 2023⟩, ⟨"d".toList, "d".toList, 2024⟩]
      List.Pairwise.nil).1⟩

/-! ## Selection by index -/

theorem filterIdxFrom_eq {α : Type} (p : Nat → Bool) (n : Nat) (l : List α) :
    filterIdxFrom p n l = ((List.enumFrom n l).filter fun x => p x.1).map Prod.snd := by
  induction l generalizing n with
  | nil => rfl
  | cons a l ih =>
    by_cases h : p n = true
    · simp [filterIdxFrom, List.enumFrom, List.filter_cons, h, ih]
    · simp [filterIdxFrom, List.enumFrom, List.filter_cons, h, ih]

theorem filterIdx_eq {α : Type} (p : Nat → Bool) (l : List α) :
    filterIdx p l = ((List.enum l).filter fun x => p x.1).map Prod.snd :=
  filterIdxFrom_eq p 0 l

theorem filterIdxFrom_sublist {α : Type} (p : Nat → Bool) (n : Nat) (l : List α) :
    (filterIdxFrom p n l).Sublist l := by
  induction l generalizing n with
  | nil => simp [filterIdxFrom]
  | cons a l ih =>
    by_cases h : p n = true
    · simp only [filterIdxFrom, h, if_true]; exact (ih _).cons₂ a
    · simp only [filterIdxFrom, h, if_false]; exact (ih _).cons a

theorem filterIdxFrom_length {α : Type} (p : Nat → Bool) (n : Nat) (l : List α) :
    (filterIdxFrom p n l).length + (filterIdxFrom (fun i => !p i) n l).length = l.length := by
  induction l generalizing n with
  | nil => simp [filterIdxFrom]
  | cons a l ih =>
    have := ih (n + 1)
    by_cases h : p n = true
    · simp only [filterIdxFrom, h, if_true, Bool.not_true, List.length_cons]
      simp; omega
    · simp only [filterIdxFrom, h, if_false, List.length_cons]
      simp [h]; omega

theorem filterIdxFrom_all {α : Type} (p : Nat → Bool) (n : Nat) (l : List α)
    (h : ∀ i, p i = true) : filterIdxFrom p n l = l := by
  induction l generalizing n with
  | nil => rfl
  | cons a l ih => simp [filterIdxFrom, h, ih]

theorem sum_map_set {α : Type} (f : α → Nat) (l : List α) (i : Nat) (a x : α)
    (h : l[i]? = some a) : ((l.set i x).map f).sum + f a = (l.map f).sum + f x := by
  induction l generalizing i with
  | nil => simp at h
  | cons b l ih =>
    cases i with
    | zero =>
      simp only [List.getElem?_cons_zero, Option.some.injEq] at h
      subst h
      simp; omega
    | succ i =>
      simp only [List.getElem?_cons_succ] at h
      have := ih i h
      simp only [List.set_cons_succ, List.map_cons, List.sum_cons]
      omega

/-! ## Moving and deleting the selected papers -/

/-- C7: with a folder being viewed, a target chosen (`moveTargetFolder` is not the empty
string) whose code resolves by `findIndex` to a folder other than the viewed one, the move
succeeds; afterwards the viewed folder holds exactly its papers at the unselected indices,
in their order, the target holds a permutation of its old papers and the papers at the
selected indices, ordered by year, both keep code and name and a count equal to the
number of papers, every other folder is untouched, the number of folders and the total
number of papers are unchanged, and the selection is cleared. -/
theorem move_postcondition (s : AppState) (v t : Nat) (source : Folder)
    (hview : s.viewingFolderIdx = some v)
    (hchosen : s.moveTargetFolder ≠ [])
    (hfind : findIndex (fun r => r.code == s.moveTargetFolder) s.results = some t)
    (hne : t ≠ v)
    (hsource : s.results[v]? = some source) :
    ∃ s' target source' target', moveSelectedPapers s = some s' ∧
      s.results[t]? = some target ∧ target.code = s.moveTargetFolder ∧
      s'.results.length = s.results.length ∧
      s'.results[v]? = some source' ∧
      source'.code = source.code ∧ source'.name = source.name ∧
      source'.papers = atIndices (fun i => !s.selectedPapers.contains i) source.papers ∧
      source'.count = source'.papers.length ∧
      s'.results[t]? = some target' ∧
      target'.code = target.code ∧ target'.name = target.name ∧
      target'.papers.Perm
        (target.papers ++ atIndices (fun i => s.selectedPapers.contains i) source.papers) ∧
      YearSorted target'.papers ∧
      target'.count = target'.papers.length ∧
      (∀ j, j ≠ v → j ≠ t → s'.results[j]? = s.results[j]?) ∧
      totalPapers s'.results = totalPapers s.results ∧
      s'.selectedPapers = [] ∧ s'.isSelectionMode = false := by
  obtain ⟨⟨target, htarget, hcode⟩, -⟩ := (findIndex_eq_some_iff _ _ _).1 hfind
  have hv : v < s.results.length := (List.getElem?_eq_some.1 hsource).1
  have ht : t < s.results.length := (List.getElem?_eq_some.1 htarget).1
  let kept := filterIdx (fun idx => !s.selectedPapers.contains idx) source.papers
  let moved := filterIdx (fun idx => s.selectedPapers.contains idx) source.papers
  let source' : Folder := { source with papers := kept, count := kept.length }
  let merged := sortPapers (target.papers ++ moved)
  let target' : Folder := { target with papers := merged, count := merged.length }
  have hafter : (s.results.set v source')[t]? = some target := by
    rw [List.getElem?_set_ne (Ne.symm hne)]; exact htarget
  have hmove : moveSelectedPapers s = some { s with
      results := (s.results.set v source').set t target',
      selectedPapers := [], isSelectionMode := false } := by
    simp only [moveSelectedPapers, hview, hfind, hsource]
    rw [if_neg (by simpa using hchosen)]
    simp only [hafter, source', kept, moved, target', merged]
  have hlen : moved.length + kept.length = source.papers.length :=
    filterIdxFrom_length (fun idx => s.selectedPapers.contains idx) 0 source.papers
  have hmerged : merged.length = target.papers.length + moved.length := by
    have := (sortPapers_perm (target.papers ++ moved)).length_eq
    simpa using this
  have hsum1 : totalPapers (s.results.set v source') + source.papers.length
      = totalPapers s.results + kept.length :=
    sum_map_set (fun f : Folder => f.papers.length) s.results v source source' hsource
  have hsum2 : totalPapers ((s.results.set v source').set t target') + target.papers.length
      = totalPapers (s.results.set v source') + merged.length :=
    sum_map_set (fun f : Folder => f.papers.length) (s.results.set v source') t
      target target' hafter
  refine ⟨_, target, source', target', hmove, htarget, by simpa using hcode, by simp, ?_, rfl,
    rfl, filterIdx_eq _ _, rfl, ?_, rfl, rfl, ?_, sortPapers_sorted _, rfl, ?_, ?_, rfl, rfl⟩
  · simp only [List.getElem?_set_ne hne]
    exact List.getElem?_eq_some.2 ⟨by simpa using hv, by simp⟩
  · exact List.getElem?_eq_some.2 ⟨by simpa using ht, by simp⟩
  · show merged.Perm _
    unfold atIndices
    rw [← filterIdx_eq]
    exact sortPapers_perm _
  · intro j hjv hjt
    simp only [List.getElem?_set_ne (Ne.symm hjt), List.getElem?_set_ne (Ne.symm hjv)]
  · show totalPapers ((s.results.set v source').set t target') = totalPapers s.results
    omega

theorem move_postcondition_witness :
    moveExample.viewingFolderIdx = some 0 ∧ moveExample.moveTargetFolder ≠ [] ∧
    findIndex (fun r => r.code == moveExample.moveTargetFolder) moveExample.results = some 1 ∧
    (moveSelectedPapers moveExample).map (fun s' => s'.results.map fun f => f.papers)
      = some [[⟨"a.jpg".toList, "a.jpg".toList, 2023⟩],
          [⟨"c.jpg".toList, "c.jpg".toList, 2022⟩, ⟨"b.jpg".toList, "b.jpg".toList, 2021⟩]] ∧
    ∃ s', moveSelectedPapers moveExample = some s' ∧
      totalPapers s'.results = totalPapers moveExample.results := by
  refine ⟨rfl, by decide, by decide!, by decide!, ?_⟩
  obtain ⟨s', _, _, _, h⟩ := move_postcondition moveExample 0 1
    ⟨"CIT 417".toList, "CIT 417: Data Driven Websites".toList, 2,
      [⟨"a.jpg".toList, "a.jpg".toList, 2023⟩, ⟨"b.jpg".toList, "b.jpg".toList, 2021⟩]⟩
    rfl (by decide) (by decide!) (by decide) (by decide!)
  exact ⟨s', h.1, h.2.2.2.2.2.2.2.2.2.2.2.2.2.2.2.2.1⟩

/-- C8, at the failing input: in `staleTargetState` the target code resolves to the viewed
folder, and the move is not rejected: the papers of the folder change order (the selected
paper goes behind the other papers of its year) and the selection is cleared. -/
theorem move_to_viewed_folder_reorders :
    staleTargetState.viewingFolderIdx = some 0 ∧
    staleTargetState.selectedPapers = [0] ∧
    staleTargetState.moveTargetFolder = "CIT 417".toList ∧
    findIndex (fun r => r.code == staleTargetState.moveTargetFolder) staleTargetState.results
      = some 0 ∧
    staleTargetState.results[0]?.map (fun f => f.papers)
      = some [⟨"a.jpg".toList, "a.jpg".toList, 2024⟩, ⟨"b.jpg".toList, "b.jpg".toList, 2024⟩,
          ⟨"c.jpg".toList, "c.jpg".toList, 2024⟩] ∧
    (moveSelectedPapers staleTargetState).map
        (fun s' => (s'.results[0]?.map fun f => f.papers, s'.selectedPapers, s'.isSelectionMode))
      = some (some [⟨"b.jpg".toList, "b.jpg".toList, 2024⟩,
          ⟨"c.jpg".toList, "c.jpg".toList, 2024⟩,
          ⟨"a.jpg".toList, "a.jpg".toList, 2024⟩], [], false) := by
  decide!

theorem set_self_of_getElem? {α : Type} (l : List α) (i : Nat) (a : α) (h : l[i]? = some a) :
    l.set i a = l := by
  induction l generalizing i with
  | nil => simp
  | cons b l ih =>
    cases i with
    | zero =>
      simp only [List.getElem?_cons_zero, Option.some.injEq] at h
      simp [h]
    | succ i =>
      simp only [List.getElem?_cons_succ] at h
      simp [ih i h]

/-- A target code that no folder has leaves the state as it is, selection included. -/
theorem move_unknown_target (s : AppState)
    (h : findIndex (fun r => r.code == s.moveTargetFolder) s.results = none) :
    moveSelectedPapers s = some s := by
  unfold moveSelectedPapers
  cases s.viewingFolderIdx with
  | none => rfl
  | some v => by_cases he : s.moveTargetFolder.isEmpty = true <;> simp [he, h]

/-- C9: with no folder being viewed the deletion changes nothing; with folder `v` being
viewed, afterwards it holds exactly its papers at the unselected indices, in their order
(so an ordered folder stays ordered), with the same code and name, every other folder is
untouched, and with an empty selection the papers of the viewed folder are the same (and
the whole list of folders is the same when the folder's count was the number of its
papers). -/
theorem delete_postcondition (s : AppState) :
    (s.viewingFolderIdx = none → deleteSelectedPapers s = some s) ∧
    ∀ (v : Nat) (folder : Folder), s.viewingFolderIdx = some v → s.results[v]? = some folder →
      ∃ s' folder', deleteSelectedPapers s = some s' ∧
        s'.results[v]? = some folder' ∧
        folder'.code = folder.code ∧ folder'.name = folder.name ∧
        folder'.papers = atIndices (fun i => !s.selectedPapers.contains i) folder.papers ∧
        folder'.count = folder'.papers.length ∧
        folder'.papers.Sublist folder.papers ∧
        (YearSorted folder.papers → YearSorted folder'.papers) ∧
        (∀ j, j ≠ v → s'.results[j]? = s.results[j]?) ∧
        s'.results.length = s.results.length ∧
        (s.selectedPapers = [] →
          folder'.papers = folder.papers ∧
          (folder.count = folder.papers.length → s'.results = s.results)) := by
  constructor
  · intro h; simp [deleteSelectedPapers, h]
  · intro v folder hview hfolder
    have hv : v < s.results.length := (List.getElem?_eq_some.1 hfolder).1
    let kept := filterIdx (fun idx => !s.selectedPapers.contains idx) folder.papers
    have hsub : kept.Sublist folder.papers := filterIdxFrom_sublist _ 0 _
    refine ⟨{ s with results := s.results.set v { folder with papers := kept, count := kept.length },
                     selectedPapers := [], isSelectionMode := false },
      { folder with papers := kept, count := kept.length }, ?_, ?_, rfl, rfl, filterIdx_eq _ _,
      rfl, hsub, fun h => List.Pairwise.sublist hsub h, ?_, by simp, ?_⟩
    · simp [deleteSelectedPapers, hview, hfolder, kept]
    · exact List.getElem?_eq_some.2 ⟨by simpa using hv, by simp⟩
    · intro j hj
      simp only [List.getElem?_set_ne (Ne.symm hj)]
    · intro hsel
      have hkept : kept = folder.papers :=
        filterIdxFrom_all _ 0 _ (by simp [hsel])
      refine ⟨hkept, fun hcount => ?_⟩
      have : ({ folder with papers := kept, count := kept.length } : Folder) = folder := by
        rw [hkept, ← hcount]
      simp only [this]
      exact set_self_of_getElem? _ _ _ hfolder

theorem delete_postcondition_witness :
    deleteSelectedPapers { moveExample with viewingFolderIdx := none }
        = some { moveExample with viewingFolderIdx := none } ∧
    (deleteSelectedPapers moveExample).map (fun s' => s'.results.map fun f => f.papers)
      = some [[⟨"a.jpg".toList, "a.jpg".toList, 2023⟩],
          [⟨"c.jpg".toList, "c.jpg".toList, 2022⟩]] ∧
    ∃ s', deleteSelectedPapers moveExample = some s' ∧
      s'.results.length = moveExample.results.length := by
  refine ⟨(delete_postcondition { moveExample with viewingFolderIdx := none }).1 rfl,
    by decide!, ?_⟩
  obtain ⟨s', _, h⟩ := (delete_postcondition moveExample).2 0
    ⟨"CIT 417".toList, "CIT 417: Data Driven Websites".toList, 2,
      [⟨"a.jpg".toList, "a.jpg".toList, 2023⟩, ⟨"b.jpg".toList, "b.jpg".toList, 2021⟩]⟩
    rfl (by decide!)
  exact ⟨s', h.1, h.2.2.2.2.2.2.2.2.2.1⟩

/-- C10, at the failing input: the page with the text "NEW 100" creates the folder
"NEW 100" at index 6; the 93rd manual folder is the hundredth folder and gets the code
"NEW 100" too, so two folders share a code. -/
theorem createNewFolder_repeats_code :
    manyNewFolders.results.length = 100 ∧
    manyNewFolders.results[6]?.map (fun f => f.code) = some "NEW 100".toList ∧
    manyNewFolders.results[99]?.map (fun f => f.code) = some "NEW 100".toList ∧
    ¬ (manyNewFolders.results.map fun f => f.code).Nodup := by
  decide!

/-! ## A page that cannot be read -/

/-- When `worker.recognize` throws, the iteration changes neither the folders nor the last
matched index. -/
theorem processPaper_of_failed (i : Nat) (st : LoopState) (paper : ScanFile)
    (h : paper.text = none) : processPaper i st paper = st := by
  simp [processPaper, h]

/-- C11, at the failing input: a header page of CIT 417, a page that cannot be read and a
page that passes no test.  The unreadable page goes to no folder and leaves the folders as
they were, but the last matched index is still 0 after it, and the third page, for which
the first `findIndex` and the code pattern find nothing, is stored in CIT 417. -/
theorem failed_page_keeps_context :
    failedPage.text = none ∧
    stateBefore initialResults [headerPage, failedPage, laterPage] 1
      = ⟨initialResults.set 0
          ⟨"CIT 417".toList, "CIT 417: Data Driven Websites".toList, 1,
            [⟨"p1.jpg".toList, "p1.jpg".toList, 2023⟩]⟩, some 0⟩ ∧
    stateBefore initialResults [headerPage, failedPage, laterPage] 2
      = stateBefore initialResults [headerPage, failedPage, laterPage] 1 ∧
    findIndex (folderMatches (toUpperCase "Compare the two designs".toList))
      (stateBefore initialResults [headerPage, failedPage, laterPage] 2).activeFolders = none ∧
    jsMatch codePattern (toUpperCase "Compare the two designs".toList) = none ∧
    (matchStep 2 (stateBefore initialResults [headerPage, failedPage, laterPage] 2)
      "Compare the two designs".toList).2 = some 0 ∧
    processFiles initialResults [headerPage, failedPage, laterPage]
      = initialResults.set 0
          ⟨"CIT 417".toList, "CIT 417: Data Driven Websites".toList, 2,
            [⟨"p3.jpg".toList, "p3.jpg".toList, 2024⟩,
              ⟨"p1.jpg".toList, "p1.jpg".toList, 2023⟩]⟩ := by
  decide!

/-! ## The year of a text -/

theorem andThen_one_cons (p : Char → Bool) (g : Pattern) (prev : Option Char) (m : Str)
    (x : Char) (r : Str) :
    andThen (one p) g ⟨prev, m, x :: r⟩ = if p x then g ⟨some x, m ++ [x], r⟩ else [] := by
  by_cases h : p x = true <;> simp [andThen, one, h]

theorem andThen_one_nil (p : Char → Bool) (g : Pattern) (prev : Option Char) (m : Str) :
    andThen (one p) g ⟨prev, m, []⟩ = [] := by
  simp [andThen, one]

theorem one_cons (p : Char → Bool) (prev : Option Char) (m : Str) (x : Char) (r : Str) :
    one p ⟨prev, m, x :: r⟩ = if p x then [⟨some x, m ++ [x], r⟩] else [] := rfl

theorem one_nil (p : Char → Bool) (prev : Option Char) (m : Str) :
    one p ⟨prev, m, []⟩ = [] := rfl

theorem andThen_wordBoundary (g : Pattern) (c : Cursor) :
    andThen wordBoundary g c
      = if (c.prev.any isWordChar) != (c.rest.head?.any isWordChar) then g c else [] := by
  by_cases h : ((c.prev.any isWordChar) != (c.rest.head?.any isWordChar)) = true <;>
    simp [andThen, wordBoundary, h]

theorem isWordChar_of_isDigit (d : Char) (h : isDigit d = true) : isWordChar d = true := by
  simp [isWordChar, h]

/-- One attempt of the year pattern succeeds exactly on a standalone year token. -/
theorem yearPattern_head (prev : Option Char) (s : Str) :
    ((yearPattern ⟨prev, [], s⟩).head?).map (·.matched) = yearTokenAt prev s := by
  unfold yearPattern
  rw [andThen_wordBoundary]
  match s with
  | [] => simp [yearTokenAt, andThen_one_nil]
  | [a] =>
    simp only [yearTokenAt, andThen_one_cons, andThen_one_nil]
    repeat' split
    all_goals simp
  | [a, b] =>
    simp only [yearTokenAt, andThen_one_cons, andThen_one_nil]
    repeat' split
    all_goals simp
  | [a, b, c] =>
    simp only [yearTokenAt, andThen_one_cons, andThen_one_nil]
    repeat' split
    all_goals simp
  | a :: b :: c :: d :: rest =>
    simp only [yearTokenAt, andThen_one_cons, Cursor.prev, Cursor.rest, List.head?_cons,
      Option.any_some, List.nil_append, List.cons_append, wordBoundary]
    have hw : (a == '2') = true → isWordChar a = true := by
      intro h
      have : a = '2' := by simpa using h
      subst this
      decide
    cases h1 : a == '2' <;> cases h2 : b == '0' <;> cases h3 : (c == '1' || c == '2') <;>
      cases h4 : isDigit d <;> cases h5 : prev.any isWordChar <;>
      cases h6 : rest.head?.any isWordChar <;> cases h7 : isWordChar a <;>
      simp_all [isWordChar_of_isDigit]

theorem execFrom_yearPattern (prev : Option Char) (s : Str) :
    execFrom yearPattern prev s = firstYearToken prev s := by
  induction s generalizing prev with
  | nil =>
    have h := yearPattern_head prev []
    simp only [yearTokenAt] at h
    simp [execFrom, firstYearToken, h]
  | cons c r ih =>
    have h := yearPattern_head prev (c :: r)
    unfold execFrom firstYearToken
    cases hh : (yearPattern ⟨prev, [], c :: r⟩).head? with
    | none =>
      rw [hh] at h
      simp only [Option.map_none'] at h
      rw [← h]
      exact ih (some c)
    | some m =>
      rw [hh] at h
      simp only [Option.map_some'] at h
      rw [← h]

/-- A year token is `20`, then `1` or `2`, then a digit; its value is between 2010 and
2029. -/
theorem yearTokenAt_some (prev : Option Char) (s m : Str) (h : yearTokenAt prev s = some m) :
    ∃ c d, m = ['2', '0', c, d] ∧ (c = '1' ∨ c = '2') ∧ isDigit d = true ∧
      parseInt m = 2000 + 10 * (c.toNat - 48) + (d.toNat - 48) ∧
      2010 ≤ parseInt m ∧ parseInt m ≤ 2029 := by
  unfold yearTokenAt at h
  split at h
  · rename_i a b c d rest
    split at h
    · rename_i hc
      simp only [Bool.and_eq_true, Bool.or_eq_true, beq_iff_eq] at hc
      obtain ⟨⟨⟨⟨⟨ha, hb⟩, hcc⟩, hd⟩, -⟩, -⟩ := hc
      simp only [Option.some.injEq] at h
      subst ha hb h
      have hd' := hd
      simp only [isDigit, Bool.and_eq_true, decide_eq_true_eq] at hd'
      have hval : parseInt ['2', '0', c, d] = 2000 + 10 * (c.toNat - 48) + (d.toNat - 48) := by
        simp [parseInt]
        omega
      refine ⟨c, d, rfl, hcc, hd, hval, ?_, ?_⟩
      · rcases hcc with rfl | rfl
        · rw [hval]; simp
        · rw [hval]; simp; omega
      · rcases hcc with rfl | rfl
        · rw [hval]; simp; omega
        · rw [hval]; simp; omega
    · simp at h
  · simp at h

theorem firstYearToken_some (prev : Option Char) (s m : Str)
    (h : firstYearToken prev s = some m) : ∃ prev' s', yearTokenAt prev' s' = some m := by
  induction s generalizing prev with
  | nil => simp [firstYearToken] at h
  | cons c r ih =>
    unfold firstYearToken at h
    cases hh : yearTokenAt prev (c :: r) with
    | none => rw [hh] at h; exact ih (some c) h
    | some m' =>
      rw [hh] at h
      simp only [Option.some.injEq] at h
      exact ⟨prev, c :: r, by rw [hh, h]⟩

/-- C12: the match of the year pattern is the first standalone token `20`, `1` or `2`,
digit of the text; when there is one, the detected year and the stored year are its value,
which lies between 2010 and 2029; when there is none, the detected year is 0 and the
stored year is 2024; so the stored year is always between 2010 and 2029, and it is the
year of the paper that an iteration adds to the matched folder. -/
theorem year_extraction (text : Str) :
    jsMatch yearPattern text = firstYearToken none text ∧
    (∀ m, firstYearToken none text = some m →
      (∃ c d, m = ['2', '0', c, d] ∧ (c = '1' ∨ c = '2') ∧ isDigit d = true ∧
        parseInt m = 2000 + 10 * (c.toNat - 48) + (d.toNat - 48)) ∧
      detectedYear text = parseInt m ∧ storedYear text = parseInt m ∧
      2010 ≤ parseInt m ∧ parseInt m ≤ 2029) ∧
    (firstYearToken none text = none → detectedYear text = 0 ∧ storedYear text = 2024) ∧
    2010 ≤ storedYear text ∧ storedYear text ≤ 2029 ∧
    ∀ (i : Nat) (st : LoopState) (paper : ScanFile) (folders : List Folder) (k : Nat)
      (folder : Folder), paper.text = some text → matchStep i st text = (folders, some k) →
      folders[k]? = some folder →
      processPaper i st paper =
        ⟨folders.set k (addPaper folder ⟨paper.url, paper.name, storedYear text⟩), some k⟩ := by
  have hmatch : jsMatch yearPattern text = firstYearToken none text :=
    execFrom_yearPattern none text
  have hsome : ∀ m, firstYearToken none text = some m →
      (∃ c d, m = ['2', '0', c, d] ∧ (c = '1' ∨ c = '2') ∧ isDigit d = true ∧
        parseInt m = 2000 + 10 * (c.toNat - 48) + (d.toNat - 48)) ∧
      detectedYear text = parseInt m ∧ storedYear text = parseInt m ∧
      2010 ≤ parseInt m ∧ parseInt m ≤ 2029 := by
    intro m hm
    obtain ⟨prev', s', htok⟩ := firstYearToken_some none text m hm
    obtain ⟨c, d, e, hc, hd, hval, hlo, hhi⟩ := yearTokenAt_some prev' s' m htok
    have hdet : detectedYear text = parseInt m := by
      simp [detectedYear, hmatch, hm]
    have hne : ¬ parseInt m = 0 := by omega
    exact ⟨⟨c, d, e, hc, hd, hval⟩, hdet, by simp [storedYear, hdet, hne], hlo, hhi⟩
  have hnone : firstYearToken none text = none →
      detectedYear text = 0 ∧ storedYear text = 2024 := by
    intro hn
    have hdet : detectedYear text = 0 := by simp [detectedYear, hmatch, hn]
    exact ⟨hdet, by simp [storedYear, hdet]⟩
  have hrange : 2010 ≤ storedYear text ∧ storedYear text ≤ 2029 := by
    cases hm : firstYearToken none text with
    | none => rw [(hnone hm).2]; omega
    | some m =>
      obtain ⟨-, -, hst, hlo, hhi⟩ := hsome m hm
      rw [hst]; exact ⟨hlo, hhi⟩
  exact ⟨hmatch, hsome, hnone, hrange.1, hrange.2,
    fun i st paper folders k folder ht hs hk =>
      processPaper_of_match i st paper text folders k folder ht hs hk⟩

theorem year_extraction_witness :
    firstYearToken none "Exam x2021 20234 2023-24, 2019".toList = some "2023".toList ∧
    storedYear "Exam x2021 20234 2023-24, 2019".toList = 2023 ∧
    firstYearToken none "Question 1: 2009 and 2030".toList = none ∧
    storedYear "Question 1: 2009 and 2030".toList = 2024 :=
  ⟨by decide!,
    ((year_extraction "Exam x2021 20234 2023-24, 2019".toList).2.1 "2023".toList
      (by decide!)).2.2.1.trans (by decide!),
    by decide!,
    ((year_extraction "Question 1: 2009 and 2030".toList).2.2.1 (by decide!)).2⟩

/-! ## The name and the code of a detected folder -/

/-- C13, at the failing inputs.  For "ABC-123 Advanced Networking" the pattern matches
"ABC-123" and the code is "ABC 123", but line 132 looks for the code, which no line
contains, and the name is "ABC 123: Detected Subject"; the same happens with a colon.
For the text in lower case the line is found, but line 135 removes the match of the
uppercased text, which the line does not contain, and the name repeats the whole line.
With a space and capitals the title is found. -/
theorem detected_name_misses_title :
    jsMatch codePattern (toUpperCase "ABC-123 Advanced Networking".toList)
      = some "ABC-123".toList ∧
    matchStep 0 ⟨initialResults, none⟩ "ABC-123 Advanced Networking".toList
      = (initialResults ++
          [⟨"ABC 123".toList, "ABC 123: Detected Subject".toList, 0, []⟩], some 6) ∧
    matchStep 0 ⟨initialResults, none⟩ "ABC:123 Advanced Networking".toList
      = (initialResults ++
          [⟨"ABC123".toList, "ABC123: Detected Subject".toList, 0, []⟩], some 6) ∧
    matchStep 0 ⟨initialResults, none⟩ "abc 123 advanced networking".toList
      = (initialResults ++
          [⟨"ABC 123".toList, "ABC 123: abc 123 advanced networking".toList, 0, []⟩],
          some 6) ∧
    matchStep 0 ⟨initialResults, none⟩ "ABC 123 Advanced Networking".toList
      = (initialResults ++
          [⟨"ABC 123".toList, "ABC 123: Advanced Networking".toList, 0, []⟩], some 6) := by
  decide!

/-- C14, at the failing input: the page "ABC : 123 Intro" creates the folder "ABC  123";
the text of the next page, "ABC123", contains that code with its white space removed, but
line 115 removes only the first space, the page passes no test of the folder, and the loop
creates a second folder, "ABC123", for it. -/
theorem merged_code_not_matched :
    (processFiles initialResults
        [⟨"a.jpg".toList, "a.jpg".toList, some "ABC : 123 Intro".toList⟩]).map
        (fun f => f.code)
      = (initialResults.map fun f => f.code) ++ ["ABC  123".toList] ∧
    includes (toUpperCase "ABC123".toList)
      ("ABC  123".toList.filter fun c => !isSpace c) = true ∧
    replace "ABC  123".toList [' '] [] = "ABC 123".toList ∧
    (processFiles initialResults
        [⟨"a.jpg".toList, "a.jpg".toList, some "ABC : 123 Intro".toList⟩,
         ⟨"b.jpg".toList, "b.jpg".toList, some "ABC123".toList⟩]).map
        (fun f => (f.code, f.papers.map fun p => p.url))
      = (initialResults.map fun f => (f.code, ([] : List Str))) ++
          [("ABC  123".toList, ["a.jpg".toList]), ("ABC123".toList, ["b.jpg".toList])] := by
  decide!

/-! ## The name part -/

theorem splitAux_eq (sep : Char) (cur s : Str) :
    splitAux sep cur s =
      (cur ++ s.takeWhile fun c => c != sep) ::
        (match s.dropWhile fun c => c != sep with
          | [] => []
          | _ :: t => splitAux sep [] t) := by
  induction s generalizing cur with
  | nil => simp [splitAux]
  | cons c s ih =>
    by_cases h : c = sep
    · subst h
      simp [splitAux, List.takeWhile_cons, List.dropWhile_cons]
    · have hne : (c != sep) = true := by simpa using h
      have hbeq : (c == sep) = false := by simpa using h
      rw [splitAux]
      simp only [hbeq, Bool.false_eq_true, if_false]
      rw [ih (cur ++ [c])]
      simp [List.takeWhile_cons, List.dropWhile_cons, hne]

/-- The element `[1]` of `name.split(':')`. -/
theorem split_colon_second (name : Str) :
    (split ':' name)[1]? =
      if ':' ∈ name then some (betweenColons name) else none := by
  unfold split betweenColons afterFirstColon
  rw [splitAux_eq]
  cases hd : name.dropWhile (fun c => c != ':') with
  | nil =>
    have hnot : ':' ∉ name := by
      intro hmem
      have := List.dropWhile_eq_nil_iff.1 hd ':' hmem
      simp at this
    simp [hnot]
  | cons x t =>
    have hmem : ':' ∈ name := by
      by_contra hnot
      have : name.dropWhile (fun c => c != ':') = [] := by
        rw [List.dropWhile_eq_nil_iff]
        intro c hc
        have : c ≠ ':' := fun h => hnot (h ▸ hc)
        simpa using this
      rw [this] at hd
      cases hd
    have hsplit := splitAux_eq ':' [] t
    simp only [hmem, if_true, List.getElem?_cons_succ, List.drop_succ_cons, List.drop_zero]
    rw [hsplit]
    simp

/-- C15 (as stated) fails in both of its consequences.  The name "X: Data: Driven Websites"
contributes DATA only, not DATA:, DRIVEN and WEBSITES, because `split(':')[1]` ends at the
second colon.  The name "Data Driven Websites:" has nothing after its colon, yet its
significant words are DATA, DRIVEN and WEBSITES: (the empty piece is falsy and `||` takes
the whole name), and after a rename of the first seed folder to that name the text
"Data driven design", which contains no code, is matched to it by the name test. -/
theorem name_part_counterexample :
    significantWords "X: Data: Driven Websites".toList = ["DATA".toList] ∧
    (split ' ' (toUpperCase (trim (afterFirstColon "X: Data: Driven Websites".toList)))).filter
        (fun w => jsLength w > 3)
      = ["DATA:".toList, "DRIVEN".toList, "WEBSITES".toList] ∧
    afterFirstColon "Data Driven Websites:".toList = [] ∧
    significantWords "Data Driven Websites:".toList
      = ["DATA".toList, "DRIVEN".toList, "WEBSITES:".toList] ∧
    renamedState.map (fun s => s.results.map fun f => f.name)
      = some ("Data Driven Websites:".toList :: (initialResults.drop 1).map fun f => f.name) ∧
    renamedState.map (fun s => s.results.map
        (codeOccurs (toUpperCase "Data driven design".toList)))
      = some [false, false, false, false, false, false] ∧
    renamedState.map (fun s => (matchStep 0 ⟨s.results, none⟩ "Data driven design".toList).2)
      = some (some 0) := by
  decide!

/-- An entry found by `lookup` is an entry of the list. -/
theorem lookup_mem (n : Nat) (us : List Nat) (l : List (Nat × List Nat))
    (h : l.lookup n = some us) : (n, us) ∈ l := by
  induction l with
  | nil => simp at h
  | cons e l ih =>
    obtain ⟨a, b⟩ := e
    by_cases hna : n = a
    · subst hna
      simp [List.lookup] at h
      simp [h]
    · have hne : (n == a) = false := by simpa using hna
      simp only [List.lookup, hne] at h
      exact List.mem_cons_of_mem _ (ih h)

/-- The uppercase form of a character is never empty. -/
theorem upperChar_ne_nil (c : Char) : upperChar c ≠ [] := by
  unfold upperChar
  split
  · simp
  · have hall : ∀ e ∈ upperSpecial, e.2 ≠ [] := by decide!
    unfold upperOf
    cases hl : upperSpecial.lookup c.toNat with
    | some us =>
      have hne := hall _ (lookup_mem _ _ _ hl)
      simpa using hne
    | none =>
      simp only
      split <;> simp

/-- Uppercasing keeps the empty string apart from the others. -/
theorem toUpperCase_eq_nil (s : Str) : toUpperCase s = [] ↔ s = [] := by
  cases s with
  | nil => simp [toUpperCase]
  | cons c s =>
    have h := upperChar_ne_nil c
    simp [toUpperCase, List.flatMap_cons, h]

/-- The name part is the piece between the first and the second colon, trimmed and
uppercased, unless the name has no colon or that piece is blank. -/
theorem namePart_eq (name : Str) :
    namePart name =
      if ':' ∈ name ∧ trim (betweenColons name) ≠ [] then toUpperCase (trim (betweenColons name))
      else toUpperCase name := by
  unfold namePart
  rw [split_colon_second]
  by_cases hmem : ':' ∈ name
  · by_cases hblank : trim (betweenColons name) = []
    · simp [hmem, hblank, toUpperCase_eq_nil]
    · simp [hmem, hblank, toUpperCase_eq_nil]
  · simp [hmem]

/-- C15 (amended): the significant words are the words longer than three characters of the
name part, and the name part is: the whole uppercased name when the name has no colon; the
piece between the first colon and the second colon (or the end of the name), trimmed and
uppercased, when that piece is not blank; and the whole uppercased name again when the name
has a colon and that piece is blank. -/
theorem name_part_between_colons (name : Str) :
    significantWords name = (split ' ' (namePart name)).filter (fun w => jsLength w > 3) ∧
    (':' ∉ name → namePart name = toUpperCase name) ∧
    (':' ∈ name → trim (betweenColons name) ≠ [] →
      namePart name = toUpperCase (trim (betweenColons name))) ∧
    (':' ∈ name → trim (betweenColons name) = [] → namePart name = toUpperCase name) := by
  refine ⟨rfl, ?_, ?_, ?_⟩
  · intro h; rw [namePart_eq]; simp [h]
  · intro h hb; rw [namePart_eq]; simp [h, hb]
  · intro h hb; rw [namePart_eq]; simp [hb]

theorem name_part_between_colons_witness :
    (':' ∈ "X: Data: Driven Websites".toList ∧
      trim (betweenColons "X: Data: Driven Websites".toList) = "Data".toList ∧
      namePart "X: Data: Driven Websites".toList = "DATA".toList) ∧
    (':' ∈ "Data Driven Websites:".toList ∧
      trim (betweenColons "Data Driven Websites:".toList) = [] ∧
      namePart "Data Driven Websites:".toList = "DATA DRIVEN WEBSITES:".toList) ∧
    (':' ∉ "NEW 7 - Click pencil to rename".toList ∧
      namePart "NEW 7 - Click pencil to rename".toList
        = "NEW 7 - CLICK PENCIL TO RENAME".toList) :=
  ⟨⟨by decide!, by decide!,
      ((name_part_between_colons "X: Data: Driven Websites".toList).2.2.1 (by decide!)
        (by decide!)).trans (by decide!)⟩,
    ⟨by decide!, by decide!,
      ((name_part_between_colons "Data Driven Websites:".toList).2.2.2 (by decide!)
        (by decide!)).trans (by decide!)⟩,
    ⟨by decide!,
      ((name_part_between_colons "NEW 7 - Click pencil to rename".toList).2.1
        (by decide!)).trans (by decide!)⟩⟩

/-! ## The indices of the loop -/

/-- The block `// 2. New Folder` keeps a valid index valid and never shortens the array. -/
theorem newFolder_valid (text cleanText : Str) (fs : List Folder) (m : Option Nat)
    (hm : ∀ k, m = some k → k < fs.length) :
    (∀ k, (newFolder text cleanText fs m).2 = some k →
      k < (newFolder text cleanText fs m).1.length) ∧
    fs.length ≤ (newFolder text cleanText fs m).1.length ∧
    ((newFolder text cleanText fs m).2 = none → (newFolder text cleanText fs m).1 = fs) := by
  unfold newFolder
  cases m with
  | some k => exact ⟨fun j hj => hm j hj, Nat.le_refl _, fun h => rfl⟩
  | none =>
    cases hj : jsMatch codePattern cleanText with
    | none => simp
    | some mm =>
      cases hf : findIndex (fun f => f.code == normalizeCode mm) fs with
      | some k =>
        have := findIndex_lt_length _ _ _ hf
        simp only [hf, Option.some.injEq]
        exact ⟨fun j hj => hj ▸ this, Nat.le_refl _, by simp⟩
      | none => simp [hf]

/-- The step yields an index inside the array whenever the last matched index is inside
it, whatever the folders hold. -/
theorem matchStep_valid (i : Nat) (st : LoopState) (text : Str)
    (h : ∀ k, st.lastMatchedIndex = some k → k < st.activeFolders.length) :
    (∀ k, (matchStep i st text).2 = some k → k < (matchStep i st text).1.length) ∧
    st.activeFolders.length ≤ (matchStep i st text).1.length ∧
    ((matchStep i st text).2 = none → (matchStep i st text).1 = st.activeFolders) := by
  obtain ⟨h1, h2, h3⟩ := newFolder_valid text (toUpperCase text) st.activeFolders
    (findIndex (folderMatches (toUpperCase text)) st.activeFolders)
    (fun k hk => findIndex_lt_length _ _ _ hk)
  unfold matchStep
  simp only
  generalize newFolder text (toUpperCase text) st.activeFolders
    (findIndex (folderMatches (toUpperCase text)) st.activeFolders) = r at h1 h2 h3
  have hsticky : sticky i (toUpperCase text) st.lastMatchedIndex r.2 = r.2 ∨
      (r.2 = none ∧ sticky i (toUpperCase text) st.lastMatchedIndex r.2
        = st.lastMatchedIndex) := by
    unfold sticky
    cases hr2 : r.2 with
    | some j => exact Or.inl rfl
    | none =>
      cases hl : st.lastMatchedIndex with
      | none => exact Or.inl rfl
      | some last =>
        by_cases hc : (isBodyPage (toUpperCase text) || decide (i > 0)) = true
        · exact Or.inr ⟨rfl, by simp only [hc, if_true]⟩
        · exact Or.inl (by simp only [hc, Bool.false_eq_true, if_false])
  refine ⟨?_, h2, ?_⟩
  · intro k hk
    rcases hsticky with hs | ⟨hn, hs⟩
    · rw [hs] at hk
      exact h1 k hk
    · rw [hs] at hk
      rw [h3 hn]
      exact h k hk
  · intro hn
    rcases hsticky with hs | ⟨hn', -⟩
    · rw [hs] at hn
      exact h3 hn
    · exact h3 hn'

/-- One iteration keeps the last matched index inside the array and never shortens the
array, from any state of the folders. -/
theorem processPaper_valid (i : Nat) (st : LoopState) (paper : ScanFile)
    (h : ∀ k, st.lastMatchedIndex = some k → k < st.activeFolders.length) :
    (∀ k, (processPaper i st paper).lastMatchedIndex = some k →
      k < (processPaper i st paper).activeFolders.length) ∧
    st.activeFolders.length ≤ (processPaper i st paper).activeFolders.length := by
  cases ht : paper.text with
  | none =>
    rw [processPaper_of_failed i st paper ht]
    exact ⟨h, Nat.le_refl _⟩
  | some text =>
    obtain ⟨h1, h2, -⟩ := matchStep_valid i st text h
    cases hs : matchStep i st text with
    | mk fs m =>
      rw [hs] at h1 h2
      cases m with
      | none =>
        have : processPaper i st paper = ⟨fs, none⟩ := by simp [processPaper, ht, hs]
        rw [this]
        exact ⟨fun k hk => (nomatch hk), h2⟩
      | some k =>
        have hk : k < fs.length := h1 k rfl
        rw [processPaper_of_match i st paper text fs k fs[k] ht hs
          (List.getElem?_eq_getElem hk)]
        refine ⟨fun j hj => ?_, ?_⟩
        · simp only [Option.some.injEq] at hj
          subst hj
          simpa using hk
        · simpa using h2

theorem loopFrom_valid (j : Nat) (st : LoopState) (files : List ScanFile)
    (h : ∀ k, st.lastMatchedIndex = some k → k < st.activeFolders.length) :
    (∀ k, (loopFrom j st files).lastMatchedIndex = some k →
      k < (loopFrom j st files).activeFolders.length) ∧
    st.activeFolders.length ≤ (loopFrom j st files).activeFolders.length := by
  induction files generalizing j st with
  | nil => exact ⟨h, Nat.le_refl _⟩
  | cons paper files ih =>
    obtain ⟨h1, h2⟩ := processPaper_valid j st paper h
    obtain ⟨h3, h4⟩ := ih (j + 1) (processPaper j st paper) h1
    exact ⟨h3, Nat.le_trans h2 h4⟩

/-- C16: at the start of every iteration of every run, whatever the texts and whichever
pages cannot be read, the last matched index is unset or inside `activeFolders`, which is
at least as long as at the start of the run; the match index the step of that iteration
yields, for any text, is inside the array the step yields, so the folder it denotes
exists; and an iteration keeps this from any state of the folders, so that a handler that
writes into folder objects between two iterations cannot break it. -/
theorem last_matched_index_valid (results : List Folder) (files : List ScanFile) (i : Nat) :
    (∀ k, (stateBefore results files i).lastMatchedIndex = some k →
      k < (stateBefore results files i).activeFolders.length) ∧
    results.length ≤ (stateBefore results files i).activeFolders.length ∧
    (∀ (text : Str) (k : Nat),
      (matchStep i (stateBefore results files i) text).2 = some k →
      ∃ folder, (matchStep i (stateBefore results files i) text).1[k]? = some folder) ∧
    ∀ (n : Nat) (st : LoopState) (paper : ScanFile),
      (∀ k, st.lastMatchedIndex = some k → k < st.activeFolders.length) →
      ∀ k, (processPaper n st paper).lastMatchedIndex = some k →
        k < (processPaper n st paper).activeFolders.length := by
  have hrun := loopFrom_valid 0 ⟨results, none⟩ (files.take i) (fun k hk => by cases hk)
  refine ⟨hrun.1, hrun.2, ?_, fun n st paper h => (processPaper_valid n st paper h).1⟩
  intro text k hk
  have := (matchStep_valid i (stateBefore results files i) text hrun.1).1 k hk
  exact ⟨_, List.getElem?_eq_getElem this⟩

theorem last_matched_index_valid_witness :
    (stateBefore initialResults [headerPage, failedPage, laterPage] 2).lastMatchedIndex
      = some 0 ∧
    0 < (stateBefore initialResults [headerPage, failedPage, laterPage] 2).activeFolders.length :=
  ⟨by decide!,
    (last_matched_index_valid initialResults [headerPage, failedPage, laterPage] 2).1 0
      (by decide!)⟩

/-! ## The count fields -/

theorem countsMatch_set (fs : List Folder) (k : Nat) (x : Folder) (h : CountsMatch fs)
    (hx : x.count = x.papers.length) : CountsMatch (fs.set k x) := by
  intro f hf
  rcases List.mem_or_eq_of_mem_set hf with hf | rfl
  · exact h f hf
  · exact hx

theorem addPaper_count (f : Folder) (p : Paper) (h : f.count = f.papers.length) :
    (addPaper f p).count = (addPaper f p).papers.length := by
  have := (sortPapers_perm (f.papers ++ [p])).length_eq
  simp only [addPaper, this, List.length_append, List.length_singleton, h]

theorem countsMatch_newFolder (text cleanText : Str) (fs : List Folder) (m : Option Nat)
    (h : CountsMatch fs) : CountsMatch (newFolder text cleanText fs m).1 := by
  unfold newFolder
  cases m with
  | some k => exact h
  | none =>
    cases hj : jsMatch codePattern cleanText with
    | none => exact h
    | some mm =>
      cases hf : findIndex (fun f => f.code == normalizeCode mm) fs with
      | some k => simp only [hf]; exact h
      | none =>
        simp only [hf]
        intro f hmem
        rcases List.mem_append.1 hmem with hmem | hmem
        · exact h f hmem
        · simp only [List.mem_singleton] at hmem
          subst hmem
          rfl

/-- One iteration keeps every `count` equal to the number of papers. -/
theorem countsMatch_processPaper (i : Nat) (st : LoopState) (paper : ScanFile)
    (h : CountsMatch st.activeFolders) : CountsMatch (processPaper i st paper).activeFolders := by
  cases ht : paper.text with
  | none => rw [processPaper_of_failed i st paper ht]; exact h
  | some text =>
    have hstep : CountsMatch (matchStep i st text).1 := by
      unfold matchStep
      exact countsMatch_newFolder _ _ _ _ h
    cases hs : matchStep i st text with
    | mk fs m =>
      rw [hs] at hstep
      cases m with
      | none =>
        have : processPaper i st paper = ⟨fs, none⟩ := by simp [processPaper, ht, hs]
        rw [this]; exact hstep
      | some k =>
        cases hk : fs[k]? with
        | none =>
          have : processPaper i st paper = st := by simp [processPaper, ht, hs, hk]
          rw [this]; exact h
        | some folder =>
          rw [processPaper_of_match i st paper text fs k folder ht hs hk]
          have hmem : folder ∈ fs := List.getElem?_mem hk
          exact countsMatch_set fs k _ hstep (addPaper_count folder _ (hstep folder hmem))

theorem countsMatch_loopFrom (j : Nat) (st : LoopState) (files : List ScanFile)
    (h : CountsMatch st.activeFolders) : CountsMatch (loopFrom j st files).activeFolders := by
  induction files generalizing j st with
  | nil => exact h
  | cons paper files ih => exact ih (j + 1) _ (countsMatch_processPaper j st paper h)

theorem countsMatch_createNewFolder (s : AppState) (h : CountsMatch s.results) :
    CountsMatch (createNewFolder s).results := by
  intro f hf
  simp only [createNewFolder] at hf
  rcases List.mem_append.1 hf with hf | hf
  · exact h f hf
  · simp only [List.mem_singleton] at hf
    subst hf
    rfl

theorem countsMatch_saveFolderName (idx : Nat) (s s' : AppState) (h : CountsMatch s.results)
    (hs : saveFolderName idx s = some s') : CountsMatch s'.results := by
  unfold saveFolderName at hs
  cases hf : s.results[idx]? with
  | none => simp [hf] at hs
  | some folder =>
    simp only [hf, Option.some.injEq] at hs
    subst hs
    exact countsMatch_set _ _ _ h (h folder (List.getElem?_mem hf))

theorem countsMatch_deleteSelectedPapers (s s' : AppState) (h : CountsMatch s.results)
    (hs : deleteSelectedPapers s = some s') : CountsMatch s'.results := by
  unfold deleteSelectedPapers at hs
  cases hv : s.viewingFolderIdx with
  | none =>
    simp only [hv, Option.some.injEq] at hs
    subst hs; exact h
  | some v =>
    cases hf : s.results[v]? with
    | none => simp [hv, hf] at hs
    | some folder =>
      simp only [hv, hf, Option.some.injEq] at hs
      subst hs
      exact countsMatch_set _ _ _ h rfl

theorem countsMatch_moveSelectedPapers (s s' : AppState) (h : CountsMatch s.results)
    (hs : moveSelectedPapers s = some s') : CountsMatch s'.results := by
  unfold moveSelectedPapers at hs
  cases hv : s.viewingFolderIdx with
  | none =>
    simp only [hv, Option.some.injEq] at hs
    subst hs; exact h
  | some v =>
    simp only [hv] at hs
    split at hs
    · simp only [Option.some.injEq] at hs
      subst hs; exact h
    · split at hs
      · simp only [Option.some.injEq] at hs
        subst hs; exact h
      · split at hs
        · cases hs
        · split at hs
          · cases hs
          · simp only [Option.some.injEq] at hs
            subst hs
            exact countsMatch_set _ _ _ (countsMatch_set _ _ _ h rfl) rfl

/-- An iteration inside a session keeps every `count` equal to the number of papers. -/
theorem countsMatch_iteration (s : Session) (paper : ScanFile) (h : CountsMatch s.app.results) :
    CountsMatch (iteration s paper).app.results := by
  unfold iteration
  simp only
  split
  · apply countsMatch_processPaper
    intro f hf
    exact h f (List.mem_of_mem_take hf)
  · exact h

/-- C17, at the failing input.  Both pages of the run are classified into CIT 417 and
nothing is deleted, so the counts should add up to 2.  Between the two iterations a folder
is created by hand and the first paper is moved into it; every `count` is still the number
of papers and the counts add up to 1, the one page classified so far.  The second iteration
then replaces `results` by its own array, which never held the new folder: "NEW 7" and the
paper a.jpg are gone, and the counts add up to 1. -/
theorem lost_folder_breaks_total :
    movedIntoNewFolder.map (fun s => s.lastMatchedIndex) = some (some 0) ∧
    movedIntoNewFolder.map (fun s => s.app.results.map fun f => f.code)
      = some ((initialResults.map fun f => f.code) ++ ["NEW 7".toList]) ∧
    movedIntoNewFolder.map (fun s => s.app.results.map fun f => f.count)
      = some [0, 0, 0, 0, 0, 0, 1] ∧
    movedIntoNewFolder.map (fun s => s.app.results.map fun f => f.papers.map fun p => p.url)
      = some [[], [], [], [], [], [], ["a.jpg".toList]] ∧
    lostFolderRun.map (fun s => s.lastMatchedIndex) = some (some 0) ∧
    lostFolderRun.map (fun s => s.app.results.map fun f => f.code)
      = some (initialResults.map fun f => f.code) ∧
    lostFolderRun.map (fun s => s.app.results.map fun f => f.count)
      = some [1, 0, 0, 0, 0, 0] ∧
    lostFolderRun.map (fun s => s.app.results.map fun f => f.papers.map fun p => p.url)
      = some [["b.jpg".toList], [], [], [], [], []] ∧
    lostFolderRun.map (fun s => totalCount s.app.results) = some 1 := by
  decide!

end OcrSorter
